import Mathlib

/-!
Verification development for the skill-triage engine of tripleyak/skillcreator
(src/scripts/triage_skill_request.py).

The Python source is shallowly embedded: strings are `List Char` (ASCII model
of Python text), Python sets of strings are lists used only through membership
and distinct counts, `dict` records become structures with `Option` fields
(`none` models an absent key), and the regular expressions of the classifier
are embedded as explicit backtracking scanners over character lists.
-/

set_option maxHeartbeats 4000000
set_option maxRecDepth 4096

-- ===========================================================================
-- Basic string machinery (ASCII model of Python str operations)
-- ===========================================================================

/-- Python text, modelled as a list of characters. -/
abbrev Str := List Char

/-- View of a Lean string literal as embedded Python text. -/
def strL (s : String) : Str := s.data

/-- ASCII lower-casing of one character, modelling Python str.lower on the
ASCII inputs that occur in this program. -/
def lowCh (c : Char) : Char :=
  if 65 ≤ c.toNat ∧ c.toNat ≤ 90 then Char.ofNat (c.toNat + 32) else c

/-- Python str.lower (ASCII model). -/
def pyLower (s : Str) : Str := s.map lowCh

/-- Python whitespace characters (ASCII model of str.split and regex \s). -/
def isSpaceCh (c : Char) : Bool :=
  c.toNat == 32 || c.toNat == 9 || c.toNat == 10 ||
  c.toNat == 13 || c.toNat == 11 || c.toNat == 12

/-- Regex word character \w (ASCII model: [a-zA-Z0-9_]). -/
def isWordCh (c : Char) : Bool :=
  (48 ≤ c.toNat && c.toNat ≤ 57) || (65 ≤ c.toNat && c.toNat ≤ 90) ||
  (97 ≤ c.toNat && c.toNat ≤ 122) || c.toNat == 95

/-- Lower-case ASCII letter. -/
def isLowerAlpha (c : Char) : Bool := 97 ≤ c.toNat && c.toNat ≤ 122

/-- Does the needle occur at the head of the haystack? -/
def leadsWith : Str → Str → Bool
  | [], _ => true
  | _ :: _, [] => false
  | a :: as, b :: bs => a == b && leadsWith as bs

/-- Python substring containment: `needle in hay`. -/
def hasSub (n : Str) : Str → Bool
  | [] => n.isEmpty
  | c :: r => leadsWith n (c :: r) || hasSub n r

/-- Helper for `splitWords`: accumulates the current word (reversed). -/
def splitWordsAux : Str → Str → List Str
  | [], acc => if acc.isEmpty then [] else [acc.reverse]
  | c :: rest, acc =>
    if isSpaceCh c then
      if acc.isEmpty then splitWordsAux rest [] else acc.reverse :: splitWordsAux rest []
    else splitWordsAux rest (c :: acc)

/-- Python str.split() with no arguments: maximal non-whitespace runs. -/
def splitWords (s : Str) : List Str := splitWordsAux s []

/-- Python `", ".join` (used for the human-readable reason tags). -/
def joinComma : List Str → Str
  | [] => []
  | [x] => x
  | x :: xs => x ++ ',' :: ' ' :: joinComma xs

/-- Python `s.replace("-", " ").replace("_", " ")` on one character. -/
def dashUnderToSpace (c : Char) : Char := if c = '-' || c = '_' then ' ' else c

/-- Python `s.replace("_", " ")` on one character. -/
def underToSpace (c : Char) : Char := if c = '_' then ' ' else c

/-- Decimal rendering of a natural number, as Python str(int). -/
def natStr (n : Nat) : Str := (Nat.repr n).data

-- ===========================================================================
-- Stable descending sort (model of Python list.sort(key=..., reverse=True),
-- which is a stable sort; a stable sort by a total preorder is unique, so an
-- insertion sort with the same stability discipline is the same function)
-- ===========================================================================

/-- Insert `x` into a list sorted descending by `key`, after every element
with a key ≥ its own (stability: `x` comes from later in the input). -/
def insD (key : α → Nat) (x : α) : List α → List α
  | [] => [x]
  | y :: ys => if key y ≤ key x then x :: y :: ys else y :: insD key x ys

/-- Stable descending insertion sort by `key`. -/
def sortD (key : α → Nat) : List α → List α
  | [] => []
  | x :: xs => insD key x (sortD key xs)

-- ===========================================================================
-- DOMAIN_SYNONYMS and detect_query_domains
-- ===========================================================================

/-- The universal domain-synonym vocabulary (triage_skill_request.py lines
233-262), in source order (Python dict preserves insertion order). -/
def DOMAIN_SYNONYMS : List (Str × List Str) :=
  [ (strL "spreadsheet", [strL "excel", strL "xlsx", strL "xls", strL "csv", strL "workbook",
      strL "tabular", strL "data table", strL "cells", strL "rows columns"]),
    (strL "document", [strL "word", strL "docx", strL "doc", strL "text document",
      strL "write document", strL "report"]),
    (strL "presentation", [strL "powerpoint", strL "pptx", strL "slides", strL "deck",
      strL "slide deck", strL "keynote", strL "pitch"]),
    (strL "pdf", [strL "pdf", strL "export pdf", strL "portable document"]),
    (strL "debugging", [strL "debug", strL "error", strL "exception", strL "stack trace",
      strL "traceback", strL "crash", strL "fix bug", strL "breakpoint", strL "investigate"]),
    (strL "testing", [strL "test", strL "unit test", strL "integration test", strL "e2e",
      strL "coverage", strL "spec", strL "tdd", strL "jest", strL "vitest", strL "pytest",
      strL "mocha"]),
    (strL "security", [strL "security", strL "vulnerability", strL "owasp", strL "audit",
      strL "secure", strL "penetration", strL "pentest", strL "xss", strL "injection"]),
    (strL "code_quality", [strL "review", strL "code review", strL "pr review",
      strL "pull request", strL "refactor", strL "clean code", strL "code smell", strL "lint"]),
    (strL "database", [strL "database", strL "db", strL "schema", strL "migration", strL "sql",
      strL "postgres", strL "mysql", strL "mongodb", strL "data model", strL "orm"]),
    (strL "api", [strL "api", strL "rest", strL "graphql", strL "endpoint", strL "openapi",
      strL "swagger", strL "restful", strL "http"]),
    (strL "frontend", [strL "ui", strL "ux", strL "frontend", strL "react", strL "vue",
      strL "angular", strL "css", strL "styling", strL "component", strL "user interface"]),
    (strL "accessibility", [strL "accessibility", strL "a11y", strL "wcag",
      strL "screen reader", strL "aria", strL "keyboard navigation"]),
    (strL "performance", [strL "performance", strL "optimize", strL "slow", strL "speed",
      strL "fast", strL "bottleneck", strL "profiling", strL "cache"]),
    (strL "authentication", [strL "auth", strL "login", strL "authentication", strL "oauth",
      strL "jwt", strL "session", strL "sign in", strL "sign up", strL "password"]),
    (strL "deployment", [strL "deploy", strL "deployment", strL "production", strL "release",
      strL "ship", strL "hosting", strL "ci", strL "cd", strL "pipeline"]),
    (strL "devops", [strL "docker", strL "kubernetes", strL "k8s", strL "container",
      strL "helm", strL "terraform", strL "infrastructure"]),
    (strL "documentation", [strL "documentation", strL "docs", strL "readme", strL "changelog",
      strL "api docs", strL "jsdoc"]),
    (strL "architecture", [strL "architecture", strL "system design", strL "design pattern",
      strL "microservices", strL "monolith"]),
    (strL "workflow", [strL "flowchart", strL "diagram", strL "workflow", strL "process",
      strL "swimlane", strL "sequence diagram", strL "uml"]),
    (strL "ai_ml", [strL "ai", strL "ml", strL "machine learning", strL "llm", strL "rag",
      strL "embedding", strL "langchain", strL "prompt", strL "model"]),
    (strL "visual", [strL "visual", strL "image", strL "graphic", strL "art", strL "canvas",
      strL "design"]) ]

/-- detect_query_domains (lines 265-285): for each vocabulary domain collect
the synonym terms occurring as substrings of the lowered query; keep domains
with at least one hit, sorted stably by descending hit count. -/
def detect_query_domains (query : Str) : List (Str × List Str) :=
  let ql := pyLower query
  let detected := DOMAIN_SYNONYMS.filterMap (fun ds =>
    let ms := ds.2.filter (fun t => hasSub t ql)
    if ms.isEmpty then none else some (ds.1, ms))
  sortD (fun d => d.2.length) detected

-- ===========================================================================
-- SkillRecord and calculate_match_score
-- ===========================================================================

/-- A catalog entry as read by the triage engine; `none` models a missing
dict key (the code reads every field through `.get` with a default). -/
structure Skill where
  name : Option Str
  source : Option Str
  description : Option Str
  keywords : Option (List Str)
  triggers : Option (List Str)
  domains : Option (List Str)
deriving DecidableEq

/-- Step 2 of the scorer (lines 316-325): first detected query domain that is
also one of the skill domains contributes min(50, 35 + 5·terms). -/
def scoreStep2 (qds : List (Str × List Str)) (sdoms : List Str) : Nat × List Str :=
  match qds with
  | [] => (0, [])
  | (d, terms) :: rest =>
    if sdoms.contains d then
      (min 50 (35 + terms.length * 5),
       [strL "domain: " ++ d ++ strL " (" ++ joinComma (terms.take 2) ++ strL ")"])
    else scoreStep2 rest sdoms

/-- Step 3 of the scorer, keyword half (lines 328-345): first detected domain
one of whose matched terms is a skill keyword gives +15; failing that, a
domain whose name (or its underscore-to-space form) is a keyword gives +15. -/
def scoreStep3 (qds : List (Str × List Str)) (skws : List Str) : Nat × List Str :=
  match qds with
  | [] => (0, [])
  | (d, terms) :: rest =>
    match terms.find? (fun t => skws.contains t) with
    | some t => (15, [strL "keyword: " ++ t])
    | none =>
      if skws.contains d || skws.contains (d.map underToSpace) then
        (15, [strL "keyword: " ++ d])
      else scoreStep3 rest skws

/-- Step 3 of the scorer, description half (lines 348-364): like the keyword
half but substring-matching against the description text, contributing +10. -/
def scoreStepDesc (qds : List (Str × List Str)) (sdesc : Str) : Nat × List Str :=
  match qds with
  | [] => (0, [])
  | (d, terms) :: rest =>
    match terms.find? (fun t => hasSub t sdesc) with
    | some t => (10, [strL "description: " ++ t])
    | none =>
      if hasSub d sdesc then (10, [strL "description: " ++ d])
      else scoreStepDesc rest sdesc

/-- calculate_match_score (lines 288-402).  Returns (score clamped to 100,
ordered reason tags).  Python set iteration order is arbitrary; sets are
modelled as first-occurrence-distinct lists, which only affects the text of
set-derived reason tags, never the score. -/
def calculate_match_score (query : Str) (skill : Skill) : Nat × List Str :=
  let ql := pyLower query
  let qwords := (splitWords ql).dedup
  let sname := pyLower (skill.name.getD [])
  let skws := (skill.keywords.getD []).map pyLower
  let strg := (skill.triggers.getD []).map pyLower
  let sdoms := (skill.domains.getD []).map pyLower
  let sdesc := pyLower (skill.description.getD [])
  let qds := detect_query_domains query
  let s2 := scoreStep2 qds sdoms
  let s3 := scoreStep3 qds skws
  let sd := scoreStepDesc qds sdesc
  let s4 : Nat × List Str :=
    if hasSub sname ql then (35, [strL "name match: " ++ sname])
    else
      let nwords := splitWords (sname.map dashUnderToSpace)
      let overlap := qwords.filter (fun w => nwords.contains w)
      if !overlap.isEmpty && overlap.any (fun w => 3 < w.length) then
        (20, [strL "partial name: " ++ joinComma overlap])
      else (0, [])
  let s5 : Nat × List Str :=
    match strg.find? (fun t => hasSub t ql) with
    | some t => (25, [strL "trigger: " ++ t])
    | none => (0, [])
  let reasons5 := s2.2 ++ s3.2 ++ sd.2 ++ s4.2 ++ s5.2
  let sig6 := qwords.filter (fun w => 3 < w.length && skws.contains w)
  let s6 : Nat × List Str :=
    if !sig6.isEmpty then
      (min 20 (sig6.length * 6),
       if reasons5.any (fun r => hasSub (strL "keyword:") r) then []
       else [strL "keywords: " ++ joinComma (sig6.take 3)])
    else (0, [])
  let reasons6 := reasons5 ++ s6.2
  let dwords := splitWords sdesc
  let sigd := qwords.filter (fun w => 4 < w.length && dwords.contains w)
  let s7 : Nat × List Str :=
    if 2 ≤ sigd.length && !(reasons6.any (fun r => hasSub (strL "description:") r)) then
      (8, [strL "description overlap"])
    else (0, [])
  (min 100 (s2.1 + (s3.1 + (sd.1 + (s4.1 + (s5.1 + (s6.1 + s7.1)))))), reasons6 ++ s7.2)

-- ===========================================================================
-- find_matching_skills (the match ranker)
-- ===========================================================================

/-- One ranked match, modelling the dict built at lines 447-454.  `name` and
`source` use `.get` with no default, so they can be absent (None). -/
structure MatchResult where
  name : Option Str
  score : Nat
  reasons : List Str
  source : Option Str
  description : Str
  domains : List Str
deriving DecidableEq

/-- Per-skill signal bundle produced by classify_input (lines 149-156). -/
structure Signals where
  has_skill_mention : Bool
  has_error : Bool
  has_code : Bool
  has_url : Bool
  mentioned_skill_name : Option Str
  extracted_purpose : Option Str
deriving DecidableEq

/-- The boost part of the ranker loop (lines 418-445): base score, then the
error/code/URL context boosts (unconditional), then the domain-alignment
boost (only when the running score is already positive). -/
def boostScore (qdNames : List Str) (signals : Signals) (query : Str)
    (skill : Skill) : Nat × List Str :=
  let base := calculate_match_score query skill
  let sdoms := (skill.domains.getD []).map pyLower
  let p1 : Nat × List Str :=
    if signals.has_error && sdoms.contains (strL "debugging") then
      (base.1 + 25, base.2 ++ [strL "error context boost"])
    else base
  let p2 : Nat × List Str :=
    if signals.has_code && sdoms.contains (strL "code_quality") then
      (p1.1 + 15, p1.2 ++ [strL "code context boost"])
    else p1
  let p3 : Nat × List Str :=
    if signals.has_url &&
       ([strL "code_quality", strL "api", strL "documentation"].any
         (fun d => sdoms.contains d)) then
      (p2.1 + 10, p2.2 ++ [strL "URL context boost"])
    else p2
  let aligned := sdoms.dedup.filter (fun d => qdNames.contains d)
  if !aligned.isEmpty && 0 < p3.1 then (p3.1 + min 15 (aligned.length * 5), p3.2)
  else p3

/-- The per-skill body of the ranker loop (lines 418-454): boosted score,
then the score > 0 qualification test and the clamp to 100. -/
def processSkill (qdNames : List Str) (signals : Signals) (query : Str)
    (skill : Skill) : Option MatchResult :=
  let b := boostScore qdNames signals query skill
  if 0 < b.1 then
    some { name := skill.name, score := min 100 b.1, reasons := b.2,
           source := skill.source,
           description := (skill.description.getD []).take 100,
           domains := skill.domains.getD [] }
  else none

/-- The qualifying matches in catalog order (the `matches` list of lines
411-454 before it is sorted). -/
def qualifyingMatches (query : Str) (skills : List Skill) (signals : Signals) :
    List MatchResult :=
  let qdNames := (detect_query_domains query).map (fun d => d.1)
  skills.filterMap (processSkill qdNames signals query)

/-- find_matching_skills (lines 405-457): qualifying matches, stable-sorted
descending by score, truncated to `limit` (default 5 in the source). -/
def find_matching_skills (query : Str) (skills : List Skill) (limit : Nat)
    (signals : Signals) : List MatchResult :=
  (sortD (fun m => m.score) (qualifyingMatches query skills signals)).take limit

-- ===========================================================================
-- Regex embedding.  Each Python pattern is embedded as a backtracking
-- matcher over `Str`.  A matcher is a function `Str → List Str` returning the
-- possible remainders after a match at the head, in backtracking priority
-- order (greedy first); `re.search` is a left-to-right scan over positions.
-- ===========================================================================

/-- Sequencing of matchers (regex concatenation). -/
def thenM (a b : Str → List Str) (cs : Str) : List Str := (a cs).flatMap b

/-- Ordered alternation (regex `x|y|...`). -/
def altM (xs : List (Str → List Str)) (cs : Str) : List Str :=
  xs.flatMap (fun f => f cs)

/-- Greedy option (regex `x?`): with the piece first, then without. -/
def optM (a : Str → List Str) (cs : Str) : List Str := a cs ++ [cs]

/-- Literal text. -/
def litM (w : Str) (cs : Str) : List Str :=
  if leadsWith w cs then [cs.drop w.length] else []

/-- Single character from a class (regex `[..]`). -/
def clsM (p : Char → Bool) : Str → List Str
  | [] => []
  | c :: r => if p c then [r] else []

/-- Greedy `p+` on characters: remainders after consuming a maximal down to a
single `p`-run, longest first. -/
def drops1 (p : Char → Bool) : Str → List Str
  | [] => []
  | c :: r => if p c then drops1 p r ++ [r] else []

/-- Greedy `p*` on characters: like `drops1` but also the empty consumption. -/
def drops0 (p : Char → Bool) (cs : Str) : List Str := drops1 p cs ++ [cs]

/-- Greedy `p+` keeping the consumed text: (consumed, rest), longest first. -/
def takes1 (p : Char → Bool) : Str → List (Str × Str)
  | [] => []
  | c :: r => if p c then
      (takes1 p r).map (fun pr => (c :: pr.1, pr.2)) ++ [([c], r)]
    else []

/-- Lazy `p+?` keeping the consumed text: shortest first. -/
def takesLazy (p : Char → Bool) : Str → List (Str × Str)
  | [] => []
  | c :: r => if p c then
      ([c], r) :: (takesLazy p r).map (fun pr => (c :: pr.1, pr.2))
    else []

/-- Trailing `\b` after a word character: succeeds iff the next character is
absent or not a word character (consumes nothing). -/
def bAfterWord : Str → List Str
  | [] => [[]]
  | c :: r => if isWordCh c then [] else [c :: r]

/-- A position is a start position for a `\b`-anchored word pattern iff the
previous character is absent or not a word character. -/
def nwp : Option Char → Bool
  | none => true
  | some c => !isWordCh c

/-- `re.MULTILINE` `^`: start of text or just after a newline. -/
def bolP : Option Char → Bool
  | none => true
  | some c => c == '\n'

/-- Any start position (pattern with no left anchor). -/
def anyP : Option Char → Bool := fun _ => true

/-- `re.search`: scan positions left to right; at each position allowed by
`sOk` (judged from the previous character) try the matcher. -/
def searchB (sOk : Option Char → Bool) (m : Str → List Str) :
    Option Char → Str → Bool
  | prev, [] => sOk prev && !(m []).isEmpty
  | prev, c :: r => (sOk prev && !(m (c :: r)).isEmpty) || searchB sOk m (some c) r

/-- `re.search` over a whole text. -/
def reSearch (sOk : Option Char → Bool) (m : Str → List Str) (s : Str) : Bool :=
  searchB sOk m none s

-- EXPLICIT_CREATE_PATTERNS (lines 86-91)

/-- `\b(?:create|build|make|design|develop)\s+(?:a\s+)?(?:new\s+)?skill\b` -/
def createM1 : Str → List Str :=
  thenM (altM [litM (strL "create"), litM (strL "build"), litM (strL "make"),
    litM (strL "design"), litM (strL "develop")])
  (thenM (drops1 isSpaceCh)
  (thenM (optM (thenM (litM (strL "a")) (drops1 isSpaceCh)))
  (thenM (optM (thenM (litM (strL "new")) (drops1 isSpaceCh)))
  (thenM (litM (strL "skill")) bAfterWord))))

/-- `\bskillforge[:\s]` -/
def createM2 : Str → List Str :=
  thenM (litM (strL "skillforge")) (clsM (fun c => c == ':' || isSpaceCh c))

/-- `\b(?:new|custom)\s+skill\s+(?:for|to)\b` -/
def createM3 : Str → List Str :=
  thenM (altM [litM (strL "new"), litM (strL "custom")])
  (thenM (drops1 isSpaceCh)
  (thenM (litM (strL "skill"))
  (thenM (drops1 isSpaceCh)
  (thenM (altM [litM (strL "for"), litM (strL "to")]) bAfterWord))))

/-- `\bultimate\s+skill\b` -/
def createM4 : Str → List Str :=
  thenM (litM (strL "ultimate"))
  (thenM (drops1 isSpaceCh) (thenM (litM (strL "skill")) bAfterWord))

/-- Does any EXPLICIT_CREATE pattern fire on the lowered query? -/
def createAny (ql : Str) : Bool :=
  reSearch nwp createM1 ql || reSearch nwp createM2 ql ||
  reSearch nwp createM3 ql || reSearch nwp createM4 ql

-- EXPLICIT_IMPROVE_PATTERNS (lines 93-97)

/-- `\b(?:improve|enhance|update|upgrade|fix|extend)\s+(?:the\s+)?(?:\w+\s+)?skill\b` -/
def improveM1 : Str → List Str :=
  thenM (altM [litM (strL "improve"), litM (strL "enhance"), litM (strL "update"),
    litM (strL "upgrade"), litM (strL "fix"), litM (strL "extend")])
  (thenM (drops1 isSpaceCh)
  (thenM (optM (thenM (litM (strL "the")) (drops1 isSpaceCh)))
  (thenM (optM (thenM (drops1 isWordCh) (drops1 isSpaceCh)))
  (thenM (litM (strL "skill")) bAfterWord))))

/-- `\bskill\s+(?:needs?|could\s+use|should\s+have)\b` -/
def improveM2 : Str → List Str :=
  thenM (litM (strL "skill"))
  (thenM (drops1 isSpaceCh)
  (altM [thenM (litM (strL "need")) (thenM (optM (litM (strL "s"))) bAfterWord),
    thenM (litM (strL "could")) (thenM (drops1 isSpaceCh)
      (thenM (litM (strL "use")) bAfterWord)),
    thenM (litM (strL "should")) (thenM (drops1 isSpaceCh)
      (thenM (litM (strL "have")) bAfterWord))]))

/-- `\b(?:add|include)\s+(?:to|in)\s+(?:the\s+)?\w+\s+skill\b` -/
def improveM3 : Str → List Str :=
  thenM (altM [litM (strL "add"), litM (strL "include")])
  (thenM (drops1 isSpaceCh)
  (thenM (altM [litM (strL "to"), litM (strL "in")])
  (thenM (drops1 isSpaceCh)
  (thenM (optM (thenM (litM (strL "the")) (drops1 isSpaceCh)))
  (thenM (drops1 isWordCh)
  (thenM (drops1 isSpaceCh)
  (thenM (litM (strL "skill")) bAfterWord)))))))

/-- Does any EXPLICIT_IMPROVE pattern fire on the lowered query? -/
def improveAny (ql : Str) : Bool :=
  reSearch nwp improveM1 ql || reSearch nwp improveM2 ql || reSearch nwp improveM3 ql

-- SKILL_QUESTION_PATTERNS (lines 99-108)

/-- `\bdo\s+(?:i|we)\s+have\s+(?:a\s+)?skill\b` -/
def questionM1 : Str → List Str :=
  thenM (litM (strL "do"))
  (thenM (drops1 isSpaceCh)
  (thenM (altM [litM (strL "i"), litM (strL "we")])
  (thenM (drops1 isSpaceCh)
  (thenM (litM (strL "have"))
  (thenM (drops1 isSpaceCh)
  (thenM (optM (thenM (litM (strL "a")) (drops1 isSpaceCh)))
  (thenM (litM (strL "skill")) bAfterWord)))))))

/-- `\bwhich\s+skill\b` -/
def questionM2 : Str → List Str :=
  thenM (litM (strL "which"))
  (thenM (drops1 isSpaceCh) (thenM (litM (strL "skill")) bAfterWord))

/-- `\bwhat\s+skill\b` -/
def questionM3 : Str → List Str :=
  thenM (litM (strL "what"))
  (thenM (drops1 isSpaceCh) (thenM (litM (strL "skill")) bAfterWord))

/-- `\brecommend\s+(?:a\s+)?skill\b` -/
def questionM4 : Str → List Str :=
  thenM (litM (strL "recommend"))
  (thenM (drops1 isSpaceCh)
  (thenM (optM (thenM (litM (strL "a")) (drops1 isSpaceCh)))
  (thenM (litM (strL "skill")) bAfterWord)))

/-- `\bskill\s+for\b` -/
def questionM5 : Str → List Str :=
  thenM (litM (strL "skill"))
  (thenM (drops1 isSpaceCh) (thenM (litM (strL "for")) bAfterWord))

/-- `\bfind\s+(?:a\s+)?skill\b` -/
def questionM6 : Str → List Str :=
  thenM (litM (strL "find"))
  (thenM (drops1 isSpaceCh)
  (thenM (optM (thenM (litM (strL "a")) (drops1 isSpaceCh)))
  (thenM (litM (strL "skill")) bAfterWord)))

/-- `\bsuggest\s+(?:a\s+)?skill\b` -/
def questionM7 : Str → List Str :=
  thenM (litM (strL "suggest"))
  (thenM (drops1 isSpaceCh)
  (thenM (optM (thenM (litM (strL "a")) (drops1 isSpaceCh)))
  (thenM (litM (strL "skill")) bAfterWord)))

/-- `\bis\s+there\s+(?:a\s+)?skill\b` -/
def questionM8 : Str → List Str :=
  thenM (litM (strL "is"))
  (thenM (drops1 isSpaceCh)
  (thenM (litM (strL "there"))
  (thenM (drops1 isSpaceCh)
  (thenM (optM (thenM (litM (strL "a")) (drops1 isSpaceCh)))
  (thenM (litM (strL "skill")) bAfterWord)))))

/-- Does any SKILL_QUESTION pattern fire on the lowered query? -/
def questionAny (ql : Str) : Bool :=
  reSearch nwp questionM1 ql || reSearch nwp questionM2 ql ||
  reSearch nwp questionM3 ql || reSearch nwp questionM4 ql ||
  reSearch nwp questionM5 ql || reSearch nwp questionM6 ql ||
  reSearch nwp questionM7 ql || reSearch nwp questionM8 ql

-- ERROR_PATTERNS (lines 118-127), matched on the ORIGINAL-case query

/-- `at\s+\S+\s+\(` -/
def errorM6 : Str → List Str :=
  thenM (litM (strL "at"))
  (thenM (drops1 isSpaceCh)
  (thenM (drops1 (fun c => !isSpaceCh c))
  (thenM (drops1 isSpaceCh) (litM (strL "(")))))

/-- `File "[^"]+", line \d+` -/
def errorM8 : Str → List Str :=
  thenM (litM (strL "File \x22"))
  (thenM (drops1 (fun c => c != '\x22'))
  (thenM (litM (strL "\x22, line "))
  (drops1 Char.isDigit)))

/-- Does any ERROR pattern fire on the original-case query?  Patterns 1-5 and
7 are plain substring searches. -/
def errorAny (q : Str) : Bool :=
  hasSub (strL "Error:") q || hasSub (strL "Exception:") q ||
  hasSub (strL "TypeError:") q || hasSub (strL "ReferenceError:") q ||
  hasSub (strL "SyntaxError:") q || reSearch anyP errorM6 q ||
  hasSub (strL "Traceback (most recent call") q || reSearch anyP errorM8 q

-- CODE_PATTERNS (lines 129-134), original case, re.MULTILINE

/-- `^\s*(function|const|let|var|class|import|export|def|async|await)\s+` -/
def codeM1 : Str → List Str :=
  thenM (drops0 isSpaceCh)
  (thenM (altM [litM (strL "function"), litM (strL "const"), litM (strL "let"),
    litM (strL "var"), litM (strL "class"), litM (strL "import"),
    litM (strL "export"), litM (strL "def"), litM (strL "async"),
    litM (strL "await")])
  (drops1 isSpaceCh))

/-- `^\s*<[a-zA-Z][^>]*>` -/
def codeM2 : Str → List Str :=
  thenM (drops0 isSpaceCh)
  (thenM (litM (strL "<"))
  (thenM (clsM (fun c => c.isAlpha))
  (thenM (drops0 (fun c => c != '>')) (litM (strL ">")))))

/-- `^\s*@\w+` -/
def codeM4 : Str → List Str :=
  thenM (drops0 isSpaceCh) (thenM (litM (strL "@")) (drops1 isWordCh))

/-- Does any CODE pattern fire on the original-case query?  Pattern 3 (`=>`)
is a plain substring search. -/
def codeAny (q : Str) : Bool :=
  reSearch bolP codeM1 q || reSearch bolP codeM2 q ||
  hasSub (strL "=>") q || reSearch bolP codeM4 q

-- URL_PATTERNS (lines 136-138)

/-- `https?://[^\s]+` -/
def urlM : Str → List Str :=
  thenM (litM (strL "http"))
  (thenM (optM (litM (strL "s")))
  (thenM (litM (strL "://")) (drops1 (fun c => !isSpaceCh c))))

/-- Does the URL pattern fire? -/
def urlAny (q : Str) : Bool := reSearch anyP urlM q

-- TASK_REQUEST_PATTERNS (lines 110-116)

/-- `\b(?:help|assist)\s+(?:me\s+)?(?:with|to)\b` -/
def taskM1 : Str → List Str :=
  thenM (altM [litM (strL "help"), litM (strL "assist")])
  (thenM (drops1 isSpaceCh)
  (thenM (optM (thenM (litM (strL "me")) (drops1 isSpaceCh)))
  (thenM (altM [litM (strL "with"), litM (strL "to")]) bAfterWord)))

/-- `\bi\s+need\s+to\b` -/
def taskM2 : Str → List Str :=
  thenM (litM (strL "i"))
  (thenM (drops1 isSpaceCh)
  (thenM (litM (strL "need"))
  (thenM (drops1 isSpaceCh) (thenM (litM (strL "to")) bAfterWord))))

/-- `\bhow\s+(?:do\s+i|can\s+i|to)\b` -/
def taskM3 : Str → List Str :=
  thenM (litM (strL "how"))
  (thenM (drops1 isSpaceCh)
  (altM [thenM (litM (strL "do")) (thenM (drops1 isSpaceCh)
      (thenM (litM (strL "i")) bAfterWord)),
    thenM (litM (strL "can")) (thenM (drops1 isSpaceCh)
      (thenM (litM (strL "i")) bAfterWord)),
    thenM (litM (strL "to")) bAfterWord]))

/-- `\bcan\s+you\b` -/
def taskM4 : Str → List Str :=
  thenM (litM (strL "can"))
  (thenM (drops1 isSpaceCh) (thenM (litM (strL "you")) bAfterWord))

/-- The scan after `\bplease\b` in task pattern 5: `.*\b(?:help|do|make|
create|fix|build)\b`, where `.` does not cross a newline.  `prev` is the
character right before the current position. -/
def taskM5Scan : Option Char → Str → Bool
  | _, [] => false
  | prev, c :: r =>
    (nwp prev &&
      !((thenM (altM [litM (strL "help"), litM (strL "do"), litM (strL "make"),
          litM (strL "create"), litM (strL "fix"), litM (strL "build")])
          bAfterWord) (c :: r)).isEmpty) ||
    (c != '\n' && taskM5Scan (some c) r)

/-- `\bplease\b.*\b(?:help|do|make|create|fix|build)\b`: find `please` at a
word boundary, then one of the verbs later on the same line. -/
def taskM5Search : Option Char → Str → Bool
  | _, [] => false
  | prev, c :: r =>
    (nwp prev &&
      !((thenM (litM (strL "please")) bAfterWord) (c :: r)).isEmpty &&
      taskM5Scan (some 'e') ((c :: r).drop 6)) ||
    taskM5Search (some c) r

/-- Does any TASK_REQUEST pattern fire on the lowered query? -/
def taskAny (ql : Str) : Bool :=
  reSearch nwp taskM1 ql || reSearch nwp taskM2 ql || reSearch nwp taskM3 ql ||
  reSearch nwp taskM4 ql || taskM5Search none ql

-- Signal extraction regexes (lines 162 and 171)

/-- Python str.strip(). -/
def pyStrip (s : Str) : Str :=
  ((s.dropWhile (fun c => isSpaceCh c)).reverse.dropWhile (fun c => isSpaceCh c)).reverse

/-- Candidate captures, in backtracking priority order, of
`skill\s+(?:for|to)\s+(.+?)(?:\.|$)` at the head of the text (the lazy
`.+?` excludes newlines; `$` also matches just before one trailing newline). -/
def purposeCandsAt (cs : Str) : List Str :=
  (litM (strL "skill") cs).flatMap fun r1 =>
  (drops1 isSpaceCh r1).flatMap fun r2 =>
  (altM [litM (strL "for"), litM (strL "to")] r2).flatMap fun r3 =>
  (drops1 isSpaceCh r3).flatMap fun r4 =>
  (takesLazy (fun c => c != '\n') r4).flatMap fun pr =>
    match pr.2 with
    | [] => [pr.1]
    | '.' :: _ => [pr.1]
    | ['\n'] => [pr.1]
    | _ => []

/-- Greedy `(?:-\w+)*` continuation of a capture: extensions of
(captured, rest), more iterations first, zero iterations last. -/
def starDW : Nat → (Str × Str) → List (Str × Str)
  | 0, pr => [pr]
  | n + 1, (cap, rest) =>
    (match rest with
     | '-' :: r2 =>
       (takes1 isWordCh r2).flatMap (fun pr => starDW n (cap ++ '-' :: pr.1, pr.2))
     | _ => []) ++ [(cap, rest)]

/-- Candidate captures, in priority order, of
`(?:improve|enhance|update|fix)\s+(?:the\s+)?(\w+(?:-\w+)*)\s+skill`
at the head of the text. -/
def mentionCandsAt (cs : Str) : List Str :=
  (altM [litM (strL "improve"), litM (strL "enhance"), litM (strL "update"),
    litM (strL "fix")] cs).flatMap fun r1 =>
  (drops1 isSpaceCh r1).flatMap fun r2 =>
  ((thenM (litM (strL "the")) (drops1 isSpaceCh)) r2 ++ [r2]).flatMap fun r3 =>
  (takes1 isWordCh r3).flatMap fun pr =>
  (starDW pr.2.length pr).flatMap fun pr2 =>
  (drops1 isSpaceCh pr2.2).flatMap fun r5 =>
  (litM (strL "skill") r5).map (fun _ => pr2.1)

/-- `re.search` with a capture: leftmost position first, then backtracking
priority, returning group(1). -/
def scanFirst (f : Str → List Str) : Str → Option Str
  | [] => (f []).head?
  | c :: r =>
    match (f (c :: r)).head? with
    | some x => some x
    | none => scanFirst f r

/-- The purpose clause extracted for EXPLICIT_CREATE (line 162-164). -/
def extractPurpose (ql : Str) : Option Str := (scanFirst purposeCandsAt ql).map pyStrip

/-- The skill name extracted for EXPLICIT_IMPROVE (line 171-173). -/
def extractMention (ql : Str) : Option Str := scanFirst mentionCandsAt ql

-- ===========================================================================
-- classify_input (lines 141-204)
-- ===========================================================================

/-- The eight input categories (lines 69-78). -/
inductive InputCategory
  | explicit_create | explicit_improve | skill_question | task_request
  | error_message | code_snippet | url_content | general
deriving DecidableEq

/-- classify_input: ordered first-match-wins rule groups.  Groups 1-3 and 7
match the lowered query; the error/code/URL groups match the original text. -/
def classify_input (query : Str) : InputCategory × Signals :=
  let ql := pyLower query
  let hm := hasSub (strL "skill") ql
  if createAny ql then
    (.explicit_create, ⟨hm, false, false, false, none, extractPurpose ql⟩)
  else if improveAny ql then
    (.explicit_improve, ⟨hm, false, false, false, extractMention ql, none⟩)
  else if questionAny ql then (.skill_question, ⟨hm, false, false, false, none, none⟩)
  else if errorAny query then (.error_message, ⟨hm, true, false, false, none, none⟩)
  else if codeAny query then (.code_snippet, ⟨hm, false, true, false, none, none⟩)
  else if urlAny query then (.url_content, ⟨hm, false, false, true, none, none⟩)
  else if taskAny ql then (.task_request, ⟨hm, false, false, false, none, none⟩)
  else (.general, ⟨hm, false, false, false, none, none⟩)

-- ===========================================================================
-- make_triage_decision (lines 464-625)
-- ===========================================================================

/-- The five triage actions (lines 60-66). -/
inductive TriageAction
  | USE_EXISTING | IMPROVE_EXISTING | CREATE_NEW | COMPOSE | CLARIFY
deriving DecidableEq

/-- The details dict returned with the action.  The base fields of lines
488-494 are always present; the payload fields model optional dict keys
(`none` = key absent).  `target_skill` and `purpose` can be present with a
None value, hence the nested options. -/
structure Details where
  category : InputCategory
  top_match : Option MatchResult
  top_score : Nat
  match_count : Nat
  multi_domain : Bool
  reason : Str
  suggested_action : Option Str
  recommended_skills : Option (List (Option Str))
  target_skill : Option (Option Str)
  purpose : Option (Option Str)
  recommended_chain : Option (List (Option Str))
deriving DecidableEq

/-- Outcome of running a piece of Python code that can raise. -/
inductive PyRes (α : Type)
  | ok (val : α)
  | raised
deriving DecidableEq

/-- Python `f"{x}"` for an optional string (None prints as "None"). -/
def fmtName : Option Str → Str
  | none => strL "None"
  | some s => s

/-- The loop of lines 527-533: first match whose (lowered) name contains the
(lowered) mentioned name; `m["name"].lower()` raises on a None name. -/
def findImprove (nm : Str) : List MatchResult → PyRes (Option MatchResult)
  | [] => .ok none
  | m :: rest =>
    match m.name with
    | none => .raised
    | some n =>
      if hasSub (pyLower nm) (pyLower n) then .ok (some m) else findImprove nm rest

/-- make_triage_decision.  Faithful decision table over (category, signals,
matches); `query` is a parameter of the source function that its body never
reads. -/
def make_triage_decision (category : InputCategory) (signals : Signals)
    (matchL : List MatchResult) (query : Str) : PyRes (TriageAction × Details) :=
  let _ := query
  let top_match := matchL.head?
  let top_score := match matchL.head? with | some m => m.score | none => 0
  let topName := fmtName (match matchL.head? with | some m => m.name | none => none)
  let multi_domain :=
    if 3 ≤ matchL.length then
      decide (3 ≤ ((matchL.take 3).foldl (fun acc m => acc ++ m.domains) []).dedup.length)
    else false
  let base : Details :=
    ⟨category, top_match, top_score, matchL.length, multi_domain,
     [], none, none, none, none, none⟩
  let rec3 : List (Option Str) := (matchL.take 3).map (fun m => m.name)
  match category with
  | .explicit_create =>
    if 80 ≤ top_score then
      .ok (.CLARIFY, { base with
        reason := strL "Existing skill \x27" ++ topName ++ strL "\x27 (" ++
          natStr top_score ++ strL "%) may already handle this. Create anyway or use existing?",
        suggested_action :=
          some (strL "Ask user to clarify if they want to create despite existing skill") })
    else if 50 ≤ top_score then
      .ok (.CLARIFY, { base with
        reason := strL "Existing skill \x27" ++ topName ++ strL "\x27 (" ++
          natStr top_score ++ strL "%) is similar. Create new or improve existing?",
        suggested_action := some (strL "Ask if user wants new skill or to enhance existing") })
    else
      .ok (.CREATE_NEW, { base with
        reason := strL "No strong existing match found. Proceeding with skill creation.",
        purpose := some signals.extracted_purpose })
  | .explicit_improve =>
    match signals.mentioned_skill_name with
    | some nm =>
      match findImprove nm matchL with
      | .raised => .raised
      | .ok (some m) =>
        .ok (.IMPROVE_EXISTING, { base with
          reason := strL "Improving existing skill: " ++ fmtName m.name,
          target_skill := some m.name })
      | .ok none =>
        .ok (.CLARIFY, { base with
          reason := strL "Could not identify which skill to improve",
          suggested_action := some (strL "Ask user to specify skill name") })
    | none =>
      .ok (.CLARIFY, { base with
        reason := strL "Could not identify which skill to improve",
        suggested_action := some (strL "Ask user to specify skill name") })
  | .skill_question =>
    if 60 ≤ top_score then
      .ok (.USE_EXISTING, { base with
        reason := strL "Recommending existing skill: " ++ topName ++ strL " (" ++
          natStr top_score ++ strL "%)",
        recommended_skills := some rec3 })
    else
      .ok (.CREATE_NEW, { base with
        reason := strL "No good existing skill matches. Consider creating one." })
  | .error_message =>
    let debugging_skills := matchL.filter
      (fun m => (m.domains.map pyLower).contains (strL "debugging"))
    match debugging_skills.head? with
    | some d =>
      if 50 ≤ d.score then
        .ok (.USE_EXISTING, { base with
          reason := strL "Error detected - recommending: " ++ fmtName d.name ++
            strL " (" ++ natStr d.score ++ strL "%)",
          recommended_skills := some [d.name] })
      else if 50 ≤ top_score then
        .ok (.USE_EXISTING, { base with
          reason := strL "Error handling skill: " ++ topName ++ strL " (" ++
            natStr top_score ++ strL "%)",
          recommended_skills := some rec3 })
      else
        .ok (.CREATE_NEW, { base with
          reason := strL "No error handling skill found. Consider creating one." })
    | none =>
      if 50 ≤ top_score then
        .ok (.USE_EXISTING, { base with
          reason := strL "Error handling skill: " ++ topName ++ strL " (" ++
            natStr top_score ++ strL "%)",
          recommended_skills := some rec3 })
      else
        .ok (.CREATE_NEW, { base with
          reason := strL "No error handling skill found. Consider creating one." })
  | .code_snippet | .url_content | .task_request =>
    if multi_domain && 50 ≤ top_score then
      .ok (.COMPOSE, { base with
        reason := strL "Multiple domains detected. Suggest skill composition.",
        recommended_chain := some rec3 })
    else if 80 ≤ top_score then
      .ok (.USE_EXISTING, { base with
        reason := strL "Strong match: " ++ topName ++ strL " (" ++
          natStr top_score ++ strL "%)",
        recommended_skills := some rec3 })
    else if 50 ≤ top_score then
      .ok (.IMPROVE_EXISTING, { base with
        reason := strL "Partial match: " ++ topName ++ strL " (" ++ natStr top_score ++
          strL "%) could be enhanced for this use case",
        target_skill := some (match matchL.head? with | some m => m.name | none => none) })
    else
      .ok (.CREATE_NEW, { base with
        reason := strL "No good existing skill handles this. Consider creating one." })
  | .general =>
    if 70 ≤ top_score then
      .ok (.USE_EXISTING, { base with
        reason := strL "Best match: " ++ topName ++ strL " (" ++
          natStr top_score ++ strL "%)",
        recommended_skills := some rec3 })
    else if 40 ≤ top_score then
      .ok (.CLARIFY, { base with
        reason := strL "Unclear intent. Partial matches found.",
        suggested_action := some (strL "Ask user to clarify what they need") })
    else
      .ok (.CLARIFY, { base with
        reason := strL "Unclear intent and no good skill matches",
        suggested_action := some (strL "Ask user to elaborate on their goal") })

-- ===========================================================================
-- load_skill_index and triage_request (lines 216-224, 632-671)
-- ===========================================================================

/-- Parsed JSON documents, as far as the triage path inspects them. -/
inductive JsonVal
  | null
  | bool (b : Bool)
  | num (n : Int)
  | str (s : Str)
  | arr (items : List JsonVal)
  | obj (fields : List (Str × JsonVal))

/-- Python truthiness of a parsed JSON document (`if not index:`). -/
def JsonVal.truthy : JsonVal → Bool
  | .null => false
  | .bool b => b
  | .num n => n != 0
  | .str s => !s.isEmpty
  | .arr items => !items.isEmpty
  | .obj fields => !fields.isEmpty

/-- The on-disk index file: `none` = file missing, `some none` = file exists
but is not valid JSON (json.JSONDecodeError), `some (some j)` = parses to
`j`.  load_skill_index returns None in the first two cases. -/
def load_skill_index (file : Option (Option JsonVal)) : Option JsonVal :=
  match file with
  | some (some j) => some j
  | _ => none

/-- Python dict lookup on a JSON object. -/
def jsonGet (k : Str) : List (Str × JsonVal) → Option JsonVal
  | [] => none
  | (k2, v) :: rest => if k2 = k then some v else jsonGet k rest

/-- Read an optional string field. -/
def jsonStrField (k : Str) (fs : List (Str × JsonVal)) : Option (Option Str) :=
  match jsonGet k fs with
  | none => some none
  | some (.str s) => some (some s)
  | some _ => none

/-- Read an optional list-of-strings field. -/
def jsonStrListField (k : Str) (fs : List (Str × JsonVal)) :
    Option (Option (List Str)) :=
  match jsonGet k fs with
  | none => some none
  | some (.arr items) =>
    (items.mapM (fun j => match j with | JsonVal.str s => some s | _ => none)).map some
  | some _ => none

/-- Decode one catalog entry.  The triage path reads string fields and
lists of strings; an entry of any other shape is outside the SkillRecord
data model and is mapped to `none` (the Python code would raise on it). -/
def jsonToSkill : JsonVal → Option Skill
  | .obj fs =>
    match jsonStrField (strL "name") fs, jsonStrField (strL "source") fs,
        jsonStrField (strL "description") fs, jsonStrListField (strL "keywords") fs,
        jsonStrListField (strL "triggers") fs, jsonStrListField (strL "domains") fs with
    | some n, some src, some d, some k, some t, some dm =>
      some ⟨n, src, d, k, t, dm⟩
    | _, _, _, _, _, _ => none
  | _ => none

/-- `index.get("skills", [])` followed by per-entry field reads; `none`
models the Python raise on a document outside the SkillRecord model. -/
def getSkills : JsonVal → Option (List Skill)
  | .obj fs =>
    match jsonGet (strL "skills") fs with
    | none => some []
    | some (.arr items) => items.mapM jsonToSkill
    | some _ => none
  | _ => none

/-- The Result record (lines 40-57); `data = none` models the default empty
data dict of a failure result. -/
structure TriageData where
  action : TriageAction
  details : Details
  input_category : InputCategory
  signals : Signals
  top_matches : List MatchResult
  total_skills_scanned : Nat
deriving DecidableEq

/-- Result of one triage call. -/
structure PyResult where
  success : Bool
  message : Str
  data : Option TriageData
  errors : List Str
  warnings : List Str
deriving DecidableEq

/-- Pretty name of an action, for the success message. -/
def actionStr : TriageAction → Str
  | .USE_EXISTING => strL "USE_EXISTING"
  | .IMPROVE_EXISTING => strL "IMPROVE_EXISTING"
  | .CREATE_NEW => strL "CREATE_NEW"
  | .COMPOSE => strL "COMPOSE"
  | .CLARIFY => strL "CLARIFY"

/-- The failure result of lines 645-649. -/
def indexMissingResult : PyResult :=
  ⟨false, strL "Skill index not found. Run discover_skills.py first.", none,
   [strL "Index file missing: ~/.cache/skillrecommender/skill_index.json"], []⟩

/-- triage_request (lines 632-671), parameterized by the state of the index
file (I/O is the only external input of the function). -/
def triage_request (query : Str) (file : Option (Option JsonVal)) : PyRes PyResult :=
  let cs := classify_input query
  match load_skill_index file with
  | none => .ok indexMissingResult
  | some j =>
    if !j.truthy then .ok indexMissingResult
    else
      match getSkills j with
      | none => .raised
      | some skills =>
        let ms := find_matching_skills query skills 5 cs.2
        match make_triage_decision cs.1 cs.2 ms query with
        | .raised => .raised
        | .ok ad =>
          .ok ⟨true, strL "Triage complete: " ++ actionStr ad.1,
            some ⟨ad.1, ad.2, cs.1, cs.2, ms.take 5, skills.length⟩, [], []⟩

-- ===========================================================================
-- Lemmas about the stable descending sort
-- ===========================================================================

theorem insD_perm (key : α → Nat) (x : α) (l : List α) :
    List.Perm (insD key x l) (x :: l) := by
  induction l with
  | nil => rfl
  | cons y ys ih =>
    unfold insD
    split
    · rfl
    · exact ((ih.cons y).trans (List.Perm.swap x y ys))

theorem sortD_perm (key : α → Nat) (l : List α) : List.Perm (sortD key l) l := by
  induction l with
  | nil => rfl
  | cons x xs ih => exact (insD_perm key x (sortD key xs)).trans (ih.cons x)

theorem sortD_length (key : α → Nat) (l : List α) :
    (sortD key l).length = l.length :=
  (sortD_perm key l).length_eq

theorem sortD_mem (key : α → Nat) (l : List α) (x : α) :
    x ∈ sortD key l ↔ x ∈ l :=
  (sortD_perm key l).mem_iff

theorem insD_sorted (key : α → Nat) (x : α) (l : List α)
    (h : l.Pairwise (fun a b => key b ≤ key a)) :
    (insD key x l).Pairwise (fun a b => key b ≤ key a) := by
  induction l with
  | nil => simp [insD]
  | cons y ys ih =>
    rcases List.pairwise_cons.mp h with ⟨hy, hys⟩
    unfold insD
    split
    · rename_i hk
      refine List.pairwise_cons.mpr ⟨?_, h⟩
      intro b hb
      rcases List.mem_cons.mp hb with hb | hb
      · exact hb ▸ hk
      · exact le_trans (hy b hb) hk
    · rename_i hk
      refine List.pairwise_cons.mpr ⟨?_, ih hys⟩
      intro b hb
      rcases List.mem_cons.mp ((insD_perm key x ys).mem_iff.mp hb) with hb | hb
      · exact hb ▸ Nat.le_of_not_le hk
      · exact hy b hb

theorem sortD_sorted (key : α → Nat) (l : List α) :
    (sortD key l).Pairwise (fun a b => key b ≤ key a) := by
  induction l with
  | nil => simp [sortD]
  | cons x xs ih => exact insD_sorted key x (sortD key xs) ih

theorem insD_filter_key (key : α → Nat) (x : α) (l : List α) (c : Nat) :
    (insD key x l).filter (fun a => key a == c) =
      (x :: l).filter (fun a => key a == c) := by
  induction l with
  | nil => rfl
  | cons y ys ih =>
    unfold insD
    split
    · rfl
    · rename_i hk
      by_cases hy : key y = c
      · by_cases hx : key x = c
        · exact absurd (hx ▸ hy ▸ le_refl c) hk
        · simp [List.filter_cons, hy, hx, ih]
      · simp [List.filter_cons, hy, ih]

theorem sortD_filter_key (key : α → Nat) (l : List α) (c : Nat) :
    (sortD key l).filter (fun a => key a == c) = l.filter (fun a => key a == c) := by
  induction l with
  | nil => rfl
  | cons x xs ih =>
    unfold sortD
    rw [insD_filter_key]
    simp only [List.filter_cons]
    rw [ih]

-- ===========================================================================
-- Claim C3: score bounds
-- ===========================================================================

/-- Claim C3: for every query string and skill record, the relevance score
returned by calculate_match_score lies between 0 and 100 inclusive (every
step contributes a natural number, and the sum is clamped by min 100). -/
theorem score_bounds (query : Str) (skill : Skill) :
    0 ≤ (calculate_match_score query skill).1 ∧
      (calculate_match_score query skill).1 ≤ 100 :=
  ⟨Nat.zero_le _, Nat.min_le_left 100 _⟩

-- ===========================================================================
-- Lemmas about processSkill / qualifyingMatches
-- ===========================================================================

theorem processSkill_pos (qdNames : List Str) (signals : Signals) (query : Str)
    (skill : Skill) (m : MatchResult)
    (h : processSkill qdNames signals query skill = some m) : 0 < m.score := by
  by_cases hb : 0 < (boostScore qdNames signals query skill).1
  · simp only [processSkill, if_pos hb, Option.some.injEq] at h
    rw [← h]
    exact Nat.lt_min.mpr ⟨by norm_num, hb⟩
  · simp [processSkill, if_neg hb] at h

theorem qualifying_pos (query : Str) (skills : List Skill) (signals : Signals)
    (m : MatchResult) (h : m ∈ qualifyingMatches query skills signals) :
    0 < m.score := by
  rcases List.mem_filterMap.mp h with ⟨s, _, hps⟩
  exact processSkill_pos _ _ _ _ _ hps

-- ===========================================================================
-- Claim C4: ranking output is sorted, positive, bounded and stable
-- ===========================================================================

/-- Claim C4: for every query, catalog, signals and limit, the ranker output
is sorted by non-increasing final score, contains no zero-score entry, has at
most `limit` entries (the source default is 5), and is stable: for every
score value, its entries are an initial run of the qualifying matches with
that score in catalog order. -/
theorem rank_sorted_bounded_stable (query : Str) (skills : List Skill)
    (signals : Signals) (limit : Nat) :
    (find_matching_skills query skills limit signals).Pairwise
        (fun a b => b.score ≤ a.score) ∧
    (∀ m ∈ find_matching_skills query skills limit signals, 0 < m.score) ∧
    (find_matching_skills query skills limit signals).length ≤ limit ∧
    (∀ c : Nat, ∃ t,
      (find_matching_skills query skills limit signals).filter
          (fun m => m.score == c) ++ t =
        (qualifyingMatches query skills signals).filter (fun m => m.score == c)) := by
  refine ⟨?_, ?_, ?_, ?_⟩
  · exact List.Pairwise.sublist (List.take_sublist _ _)
      (sortD_sorted (fun m => m.score) (qualifyingMatches query skills signals))
  · intro m hm
    exact qualifying_pos query skills signals m
      ((sortD_mem _ _ m).mp (List.mem_of_mem_take hm))
  · calc (find_matching_skills query skills limit signals).length
        = min limit (sortD (fun m => m.score) (qualifyingMatches query skills signals)).length :=
          List.length_take _ _
      _ ≤ limit := Nat.min_le_left _ _
  · intro c
    refine ⟨((sortD (fun m => m.score) (qualifyingMatches query skills signals)).drop
      limit).filter (fun m => m.score == c), ?_⟩
    simp only [find_matching_skills]
    rw [← List.filter_append, List.take_append_drop]
    exact sortD_filter_key _ _ _

-- ===========================================================================
-- Claim C1: context boosts and base scores
-- ===========================================================================

theorem scoreStep2_ge (qds : List (Str × List Str)) (sdoms : List Str)
    (h : ∃ p ∈ qds, sdoms.contains p.1 = true) : 35 ≤ (scoreStep2 qds sdoms).1 := by
  induction qds with
  | nil => rcases h with ⟨p, hp, _⟩; cases hp
  | cons q rest ih =>
    obtain ⟨d, terms⟩ := q
    by_cases hc : sdoms.contains d = true
    · simp only [scoreStep2, if_pos hc]
      exact Nat.le_min.mpr ⟨by norm_num, Nat.le_add_right 35 _⟩
    · rcases h with ⟨p, hp, hps⟩
      rcases List.mem_cons.mp hp with rfl | hp2
      · exact absurd hps hc
      · simp only [scoreStep2, if_neg hc]
        exact ih ⟨p, hp2, hps⟩

theorem calc_step2_le (query : Str) (skill : Skill) :
    ∃ r, (calculate_match_score query skill).1 =
      min 100 ((scoreStep2 (detect_query_domains query)
        ((skill.domains.getD []).map pyLower)).1 + r) :=
  ⟨_, rfl⟩

theorem base_zero_no_domain_overlap (query : Str) (skill : Skill)
    (h : (calculate_match_score query skill).1 = 0) :
    ∀ d ∈ (skill.domains.getD []).map pyLower,
      d ∉ (detect_query_domains query).map (fun p => p.1) := by
  intro d hd hmem
  rcases List.mem_map.mp hmem with ⟨p, hp, hpd⟩
  have h35 : 35 ≤ (scoreStep2 (detect_query_domains query)
      ((skill.domains.getD []).map pyLower)).1 :=
    scoreStep2_ge _ _ ⟨p, hp, by rw [hpd]; simpa using hd⟩
  rcases calc_step2_le query skill with ⟨r, hr⟩
  rw [hr] at h
  have h35b : 35 ≤ min 100 ((scoreStep2 (detect_query_domains query)
      ((skill.domains.getD []).map pyLower)).1 + r) :=
    Nat.le_min.mpr ⟨by norm_num, le_trans h35 (Nat.le_add_right _ _)⟩
  omega

/-- A skill with the "debugging" domain whose base relevance for "xyz" is 0. -/
def dbgSkill : Skill :=
  ⟨some (strL "debug-helper"), none, none, none, none, some [strL "debugging"]⟩

/-- Signals of an error-classified input (has_error set, nothing else). -/
def sigErr : Signals := ⟨false, true, false, false, none, none⟩

/-- Claim C1 counterexample: against the query "xyz" the skill dbgSkill has
base score 0, yet with error signals the ranker still emits it (final score
25, from the error context boost alone), so a context boost is applied to a
skill whose base score is not positive and that skill reaches the output. -/
theorem boost_without_base_counterexample :
    (calculate_match_score (strL "xyz") dbgSkill).1 = 0 ∧
    find_matching_skills (strL "xyz") [dbgSkill] 5 sigErr ≠ [] ∧
    ∀ m ∈ find_matching_skills (strL "xyz") [dbgSkill] 5 sigErr, m.score = 25 := by
  decide

/-- Claim C1 amended: every entry of the ranker output has positive FINAL
(boosted) score, but the error/code/URL context boosts are applied regardless
of the base score; in particular a skill with base score 0, error signals and
the "debugging" domain is emitted with final score exactly 25. -/
theorem context_boost_amended :
    (∀ (query : Str) (skills : List Skill) (signals : Signals) (limit : Nat),
      ∀ m ∈ find_matching_skills query skills limit signals, 0 < m.score) ∧
    (∀ (query : Str) (skill : Skill) (signals : Signals),
      (calculate_match_score query skill).1 = 0 →
      signals.has_error = true → signals.has_code = false → signals.has_url = false →
      ((skill.domains.getD []).map pyLower).contains (strL "debugging") = true →
      ∃ m, qualifyingMatches query [skill] signals = [m] ∧ m.score = 25) := by
  constructor
  · intro query skills signals limit m hm
    exact qualifying_pos query skills signals m
      ((sortD_mem _ _ m).mp (List.mem_of_mem_take hm))
  · intro query skill signals h0 herr hcode hurl hdbg
    have haligned : (((skill.domains.getD []).map pyLower).dedup.filter
        (fun d => ((detect_query_domains query).map (fun p => p.1)).contains d)) = [] := by
      apply List.filter_eq_nil_iff.mpr
      intro d hd
      have hds : d ∈ (skill.domains.getD []).map pyLower := List.mem_dedup.mp hd
      have hno := base_zero_no_domain_overlap query skill h0 d hds
      simpa using hno
    have hb : boostScore ((detect_query_domains query).map (fun p => p.1))
        signals query skill =
        ((calculate_match_score query skill).1 + 25,
         (calculate_match_score query skill).2 ++ [strL "error context boost"]) := by
      simp only [boostScore, herr, hcode, hurl, hdbg, haligned]
      simp
    refine ⟨⟨skill.name, 25,
      (calculate_match_score query skill).2 ++ [strL "error context boost"],
      skill.source, (skill.description.getD []).take 100, skill.domains.getD []⟩, ?_, rfl⟩
    simp only [qualifyingMatches, List.filterMap_cons, List.filterMap_nil]
    simp only [processSkill, hb, h0]
    norm_num

/-- Witness for context_boost_amended at a concrete input. -/
theorem context_boost_amended_witness :
    ∃ m, qualifyingMatches (strL "xyz") [dbgSkill] sigErr = [m] ∧ m.score = 25 :=
  context_boost_amended.2 (strL "xyz") dbgSkill sigErr (by decide) rfl rfl rfl (by decide)

-- ===========================================================================
-- Claim C9: missing catalog fields degrade to empty values
-- ===========================================================================

/-- The defaults the code reads through `.get`: missing keywords/triggers/
domains become empty sets, a missing description becomes the empty string. -/
def normSkill (s : Skill) : Skill :=
  ⟨s.name, s.source, some (s.description.getD []), some (s.keywords.getD []),
   some (s.triggers.getD []), some (s.domains.getD [])⟩

/-- Claim C9: scoring and ranking treat a record with missing keywords/
triggers/domains/description exactly as the record with those fields set to
empty values, and the catalog scan processes records independently (a record
never aborts the scan of the rest: the qualifying list of a concatenation is
the concatenation of the qualifying lists). -/
theorem missing_fields_defaulted :
    (∀ (query : Str) (s : Skill),
      calculate_match_score query (normSkill s) = calculate_match_score query s) ∧
    (∀ (query : Str) (skills : List Skill) (signals : Signals) (limit : Nat),
      find_matching_skills query (skills.map normSkill) limit signals =
        find_matching_skills query skills limit signals) ∧
    (∀ (query : Str) (sk1 sk2 : List Skill) (signals : Signals),
      qualifyingMatches query (sk1 ++ sk2) signals =
        qualifyingMatches query sk1 signals ++ qualifyingMatches query sk2 signals) := by
  refine ⟨fun query s => rfl, ?_, ?_⟩
  · intro query skills signals limit
    have h : ∀ qd : List Str, (fun s => processSkill qd signals query (normSkill s)) =
        (fun s => processSkill qd signals query s) :=
      fun qd => funext fun s => rfl
    simp only [find_matching_skills, qualifyingMatches, List.filterMap_map,
      Function.comp_def]
    rw [h]
  · intro query sk1 sk2 signals
    simp [qualifyingMatches, List.filterMap_append]

-- ===========================================================================
-- Claims C7 and C10: catalog unavailable / falsy index
-- ===========================================================================

/-- Did the call return a result object with success = True (as opposed to a
failure result or an uncaught exception)? -/
def triageSucceeded : PyRes PyResult → Bool
  | .ok r => r.success
  | .raised => false

/-- Claim C7: when the index file is missing or unparsable, triage returns an
explicit failure result: success is false, the human-readable message and the
error list are non-empty, no exception escapes, and the data payload (which
would carry scoring and decision output) is empty. -/
theorem catalog_unavailable (query : Str) (file : Option (Option JsonVal))
    (h : file = none ∨ file = some none) :
    triage_request query file = .ok indexMissingResult ∧
    indexMissingResult.success = false ∧
    indexMissingResult.message ≠ [] ∧
    indexMissingResult.errors ≠ [] ∧
    indexMissingResult.data = none := by
  rcases h with rfl | rfl <;> exact ⟨rfl, rfl, by decide, by decide, rfl⟩

/-- Witness for catalog_unavailable at a concrete input. -/
theorem catalog_unavailable_witness :
    triage_request (strL "hello") none = .ok indexMissingResult ∧
    indexMissingResult.success = false ∧
    indexMissingResult.message ≠ [] ∧
    indexMissingResult.errors ≠ [] ∧
    indexMissingResult.data = none :=
  catalog_unavailable (strL "hello") none (Or.inl rfl)

/-- Claim C10: an index file that parses to a falsy JSON document (empty
object, empty list, null, false, 0, empty string) produces exactly the same
"index not found" failure as a missing file, and a successful triage outcome
requires the parsed index to be truthy. -/
theorem falsy_index_fails (query : Str) :
    (∀ j : JsonVal, j.truthy = false →
      triage_request query (some (some j)) = .ok indexMissingResult ∧
      triage_request query (some (some j)) = triage_request query none) ∧
    (∀ file : Option (Option JsonVal),
      triageSucceeded (triage_request query file) = true →
      ∃ j, file = some (some j) ∧ j.truthy = true) := by
  constructor
  · intro j hj
    have h1 : triage_request query (some (some j)) = .ok indexMissingResult := by
      simp [triage_request, load_skill_index, hj]
    exact ⟨h1, h1.trans rfl⟩
  · intro file hs
    match file with
    | none => simp [triage_request, load_skill_index, triageSucceeded, indexMissingResult] at hs
    | some none => simp [triage_request, load_skill_index, triageSucceeded, indexMissingResult] at hs
    | some (some j) =>
      refine ⟨j, rfl, ?_⟩
      by_cases hj : j.truthy = true
      · exact hj
      · rw [Bool.not_eq_true] at hj
        simp [triage_request, load_skill_index, hj, triageSucceeded,
          indexMissingResult] at hs

/-- Witness for falsy_index_fails at concrete inputs: the empty JSON object
fails like a missing file, and a truthy index with an empty skills list
succeeds, exhibiting the truthiness requirement. -/
theorem falsy_index_fails_witness :
    (triage_request (strL "hello") (some (some (JsonVal.obj []))) = .ok indexMissingResult ∧
     triage_request (strL "hello") (some (some (JsonVal.obj []))) =
       triage_request (strL "hello") none) ∧
    (∃ j, (some (some (JsonVal.obj [(strL "skills", JsonVal.arr [])])) :
        Option (Option JsonVal)) = some (some j) ∧ j.truthy = true) :=
  ⟨(falsy_index_fails (strL "hello")).1 (JsonVal.obj []) rfl,
   (falsy_index_fails (strL "hello")).2
     (some (some (JsonVal.obj [(strL "skills", JsonVal.arr [])]))) (by decide)⟩

-- ===========================================================================
-- Claim C5: decision totality and payload fields
-- ===========================================================================

theorem appendL_ne {α : Type} (a b : List α) (h : a ≠ []) : a ++ b ≠ [] := by
  intro hc
  rcases List.append_eq_nil.mp hc with ⟨h1, _⟩
  exact h h1

theorem findImprove_ok (nm : Str) (l : List MatchResult)
    (h : ∀ m ∈ l, m.name.isSome = true) : ∃ o, findImprove nm l = .ok o := by
  induction l with
  | nil => exact ⟨none, rfl⟩
  | cons m rest ih =>
    have hm : m.name.isSome = true := h m (List.mem_cons_self m rest)
    match hname : m.name with
    | none => rw [hname] at hm; cases hm
    | some n =>
      by_cases hc : hasSub (pyLower nm) (pyLower n) = true
      · exact ⟨some m, by simp [findImprove, hname, hc]⟩
      · rcases ih (fun x hx => h x (List.mem_cons_of_mem m hx)) with ⟨o, ho⟩
        exact ⟨o, by simp only [findImprove, hname]; rw [if_neg hc]; exact ho⟩

/-- The details record of the CREATE_NEW branch reached from SKILL_QUESTION
with an empty match list. -/
def noMatchCreateDetails : Details :=
  ⟨.skill_question, none, 0, 0, false,
   strL "No good existing skill matches. Consider creating one.",
   none, none, none, none, none⟩

/-- Claim C5 counterexample: for category SKILL_QUESTION with no matches the
decision engine returns CREATE_NEW whose details do NOT carry the `purpose`
payload key, so not every branch populates the action-specific payload. -/
theorem decision_missing_purpose_counterexample :
    make_triage_decision .skill_question ⟨false, false, false, false, none, none⟩ []
        (strL "x") = .ok (.CREATE_NEW, noMatchCreateDetails) ∧
    noMatchCreateDetails.purpose = none ∧ noMatchCreateDetails.reason ≠ [] := by
  refine ⟨by decide, rfl, by decide⟩

theorem exParts {P : TriageAction → Details → Prop} (A : TriageAction) (D : Details)
    (h : P A D) :
    ∃ a d, (PyRes.ok (A, D) : PyRes (TriageAction × Details)) = .ok (a, d) ∧ P a d :=
  ⟨A, D, rfl, h⟩

/-- Claim C5 amended: on matches whose names are present (the MatchResult
data model), the decision engine always returns one of the five actions with
a non-empty reason; USE_EXISTING carries recommended_skills, IMPROVE_EXISTING
carries target_skill, COMPOSE carries recommended_chain, CLARIFY carries a
suggested clarifying action, and CREATE_NEW carries the `purpose` key only
when the category is EXPLICIT_CREATE (the other CREATE_NEW branches omit
it). -/
theorem decision_totality_amended (category : InputCategory) (signals : Signals)
    (matchL : List MatchResult) (query : Str)
    (hnames : ∀ m ∈ matchL, m.name.isSome = true) :
    ∃ a d, make_triage_decision category signals matchL query = .ok (a, d) ∧
      d.reason ≠ [] ∧
      (a = .USE_EXISTING → d.recommended_skills.isSome = true) ∧
      (a = .IMPROVE_EXISTING → d.target_skill.isSome = true) ∧
      (a = .COMPOSE → d.recommended_chain.isSome = true) ∧
      (a = .CLARIFY → d.suggested_action.isSome = true) ∧
      (a = .CREATE_NEW → category = .explicit_create → d.purpose.isSome = true) ∧
      (a = .USE_EXISTING ∨ a = .IMPROVE_EXISTING ∨ a = .CREATE_NEW ∨
        a = .COMPOSE ∨ a = .CLARIFY) := by
  unfold make_triage_decision
  cases category
  case explicit_improve =>
    dsimp only
    match hmn : signals.mentioned_skill_name with
    | some nm =>
      dsimp only
      rcases findImprove_ok nm matchL hnames with ⟨o, ho⟩
      rw [ho]
      match o with
      | some m =>
        apply exParts
        refine ⟨?_, ?_, ?_, ?_, ?_, ?_, ?_⟩ <;>
          first
            | decide
            | (dsimp only; decide)
            | ((repeat' apply appendL_ne) <;> decide)
            | (dsimp only; (repeat' apply appendL_ne) <;> decide)
            | simp
      | none =>
        apply exParts
        refine ⟨?_, ?_, ?_, ?_, ?_, ?_, ?_⟩ <;>
          first
            | decide
            | (dsimp only; decide)
            | ((repeat' apply appendL_ne) <;> decide)
            | (dsimp only; (repeat' apply appendL_ne) <;> decide)
            | simp
    | none =>
      dsimp only
      apply exParts
      refine ⟨?_, ?_, ?_, ?_, ?_, ?_, ?_⟩ <;>
        first
          | decide
          | (dsimp only; decide)
          | ((repeat' apply appendL_ne) <;> decide)
          | (dsimp only; (repeat' apply appendL_ne) <;> decide)
          | simp
  all_goals dsimp only
  all_goals repeat' split
  all_goals
    apply exParts
  all_goals
    refine ⟨?_, ?_, ?_, ?_, ?_, ?_, ?_⟩ <;>
      first
        | decide
        | (dsimp only; decide)
        | ((repeat' apply appendL_ne) <;> decide)
        | (dsimp only; (repeat' apply appendL_ne) <;> decide)
        | simp

/-- Witness for decision_totality_amended at a concrete input. -/
theorem decision_totality_amended_witness :
    ∃ a d, make_triage_decision .general ⟨false, false, false, false, none, none⟩ []
        (strL "x") = .ok (a, d) ∧
      d.reason ≠ [] ∧
      (a = .USE_EXISTING → d.recommended_skills.isSome = true) ∧
      (a = .IMPROVE_EXISTING → d.target_skill.isSome = true) ∧
      (a = .COMPOSE → d.recommended_chain.isSome = true) ∧
      (a = .CLARIFY → d.suggested_action.isSome = true) ∧
      (a = .CREATE_NEW → InputCategory.general = .explicit_create →
        d.purpose.isSome = true) ∧
      (a = .USE_EXISTING ∨ a = .IMPROVE_EXISTING ∨ a = .CREATE_NEW ∨
        a = .COMPOSE ∨ a = .CLARIFY) :=
  decision_totality_amended .general ⟨false, false, false, false, none, none⟩ []
    (strL "x") (by decide)

-- ===========================================================================
-- Claim C8: the pdf-export scenario
-- ===========================================================================

/-- The catalog entry of spec scenario 3. -/
def pdfSkill : Skill :=
  { name := some (strL "pdf-export"), source := none,
    description := some (strL "Exports documents to PDF"),
    keywords := some [strL "pdf", strL "export"],
    triggers := some [], domains := some [strL "pdf"] }

/-- The index document holding exactly pdfSkill. -/
def pdfIndex : JsonVal :=
  .obj [(strL "skills", .arr [ .obj [
    (strL "name", .str (strL "pdf-export")),
    (strL "domains", .arr [.str (strL "pdf")]),
    (strL "keywords", .arr [.str (strL "pdf"), .str (strL "export")]),
    (strL "triggers", .arr []),
    (strL "description", .str (strL "Exports documents to PDF"))]])]

/-- The action recommended by a triage call, when one was produced. -/
def triageActionOf : PyRes PyResult → Option TriageAction
  | .ok r => r.data.map (fun d => d.action)
  | .raised => none

/-- Claim C8: on the catalog containing exactly pdf-export and the query
"export this report as a pdf", the domain detector reports domain "pdf" with
matched term "pdf", the scorer records the domain-match tag (the +35-based
contribution) and the keyword tag (+15), the total base score is at least
35 + 15 = 50, and the triage action on this catalog is produced and is not
CREATE_NEW. -/
theorem pdf_scenario :
    (strL "pdf", [strL "pdf"]) ∈ detect_query_domains (strL "export this report as a pdf") ∧
    strL "domain: pdf (pdf)" ∈
      (calculate_match_score (strL "export this report as a pdf") pdfSkill).2 ∧
    strL "keyword: pdf" ∈
      (calculate_match_score (strL "export this report as a pdf") pdfSkill).2 ∧
    35 + 15 ≤ (calculate_match_score (strL "export this report as a pdf") pdfSkill).1 ∧
    50 ≤ (calculate_match_score (strL "export this report as a pdf") pdfSkill).1 ∧
    (triageActionOf (triage_request (strL "export this report as a pdf")
        (some (some pdfIndex)))).isSome = true ∧
    triageActionOf (triage_request (strL "export this report as a pdf")
        (some (some pdfIndex))) ≠ some .CREATE_NEW := by
  decide

-- ===========================================================================
-- Claim C2: the multi-domain COMPOSE scenario
-- ===========================================================================

/-- The success path of triage_request (lines 640-657): classify, rank with
the extracted signals, decide. -/
def triageActionOn (query : Str) (skills : List Skill) :
    PyRes (TriageAction × Details) :=
  let cs := classify_input query
  make_triage_decision cs.1 cs.2 (find_matching_skills query skills 5 cs.2) query

/-- The action component of a decision, when no exception was raised. -/
def decidedAction : PyRes (TriageAction × Details) → Option TriageAction
  | .ok ad => some ad.1
  | .raised => none

/-- A deployment/devops skill scoring 61 against the C2 query. -/
def deploySkill : Skill :=
  ⟨some (strL "deployer"), none, some [], some [strL "deploy"], some [],
   some [strL "deployment", strL "devops"]⟩

/-- A security skill scoring 61 against the C2 query. -/
def secureSkill : Skill :=
  ⟨some (strL "securer"), none, some [], some [strL "secure"], some [],
   some [strL "security"]⟩

/-- An api skill scoring 55 against the C2 query. -/
def apiSkill : Skill :=
  ⟨some (strL "apihelper"), none, some [], some [strL "api"], some [],
   some [strL "api"]⟩

/-- Claim C2 counterexample: the catalog deploySkill/secureSkill/apiSkill
satisfies the claim premises against "help me deploy and secure this API"
(all base scores ≥ 50, combined domains span 4 distinct names), yet the
classifier puts that query in GENERAL, not TASK_REQUEST (no task pattern
matches: "help me" is followed by "deploy", not "with"/"to"), and the
decision is CLARIFY, not COMPOSE. -/
theorem compose_scenario_counterexample :
    (∀ s ∈ [deploySkill, secureSkill, apiSkill],
      50 ≤ (calculate_match_score (strL "help me deploy and secure this API") s).1) ∧
    4 ≤ ((deploySkill.domains.getD [] ++ secureSkill.domains.getD [] ++
      apiSkill.domains.getD []).dedup).length ∧
    (classify_input (strL "help me deploy and secure this API")).1 = .general ∧
    (classify_input (strL "help me deploy and secure this API")).1 ≠ .task_request ∧
    decidedAction (triageActionOn (strL "help me deploy and secure this API")
      [deploySkill, secureSkill, apiSkill]) = some .CLARIFY ∧
    decidedAction (triageActionOn (strL "help me deploy and secure this API")
      [deploySkill, secureSkill, apiSkill]) ≠ some .COMPOSE := by
  decide

theorem base_le_boost (qdNames : List Str) (signals : Signals) (query : Str)
    (skill : Skill) :
    (calculate_match_score query skill).1 ≤
      (boostScore qdNames signals query skill).1 := by
  unfold boostScore
  dsimp only
  split_ifs <;> simp <;> omega

theorem processSkill_eq (qdNames : List Str) (signals : Signals) (query : Str)
    (skill : Skill) (h : 0 < (boostScore qdNames signals query skill).1) :
    processSkill qdNames signals query skill =
      some ⟨skill.name, min 100 (boostScore qdNames signals query skill).1,
        (boostScore qdNames signals query skill).2, skill.source,
        (skill.description.getD []).take 100, skill.domains.getD []⟩ := by
  simp [processSkill, h]

theorem foldl_domains_eq (l : List MatchResult) (acc : List Str) :
    l.foldl (fun acc m => acc ++ m.domains) acc =
      acc ++ (l.map (fun m => m.domains)).flatten := by
  induction l generalizing acc with
  | nil => simp
  | cons m rest ih => simp [List.foldl_cons, ih, List.append_assoc]

theorem decision_compose (signals : Signals) (matchL : List MatchResult)
    (query : Str)
    (hmd : (if 3 ≤ matchL.length then
        decide (3 ≤ ((matchL.take 3).foldl (fun acc m => acc ++ m.domains)
          []).dedup.length)
      else false) = true)
    (hts : 50 ≤ (match matchL.head? with | some m => m.score | none => 0)) :
    ∃ d : Details,
      make_triage_decision .task_request signals matchL query = .ok (.COMPOSE, d) ∧
      d.multi_domain = true ∧
      d.recommended_chain = some ((matchL.take 3).map (fun m => m.name)) := by
  unfold make_triage_decision
  dsimp only
  rw [hmd, decide_eq_true hts]
  exact ⟨_, rfl, rfl, rfl⟩

/-- The ranked entry the ranker produces for one qualifying skill. -/
def rankedOf (query : Str) (signals : Signals) (skill : Skill) : MatchResult :=
  ⟨skill.name,
   min 100 (boostScore ((detect_query_domains query).map (fun p => p.1))
     signals query skill).1,
   (boostScore ((detect_query_domains query).map (fun p => p.1))
     signals query skill).2,
   skill.source, (skill.description.getD []).take 100, skill.domains.getD []⟩

theorem processSkill_eq2 (signals : Signals) (query : Str) (skill : Skill)
    (h : 0 < (boostScore ((detect_query_domains query).map (fun p => p.1))
      signals query skill).1) :
    processSkill ((detect_query_domains query).map (fun p => p.1)) signals query
      skill = some (rankedOf query signals skill) :=
  processSkill_eq _ _ _ _ h

/-- The query of the amended compose scenario, phrased so that the task
pattern "help [me] with/to" actually fires. -/
def composeQuery : Str := strL "help me with deploy and secure this API"

/-- The signals classify_input extracts for composeQuery. -/
def composeSig : Signals := ⟨false, false, false, false, none, none⟩

/-- Claim C2 amended: for the query "help me with deploy and secure this
API" (the original query "help me deploy and secure this API" matches no
task pattern and classifies as GENERAL) and any catalog of 3 skills whose
combined domains span at least 4 distinct names and which all have base
score at least 50 against the query, classification yields TASK_REQUEST,
the decision engine computes multi_domain = true, and the resulting action
is COMPOSE with a recommended chain of exactly 3 entries, each the name of a
catalog skill. -/
theorem compose_scenario_amended (a b c : Skill)
    (h50 : ∀ s ∈ [a, b, c], 50 ≤ (calculate_match_score composeQuery s).1)
    (hdom : 4 ≤ ((a.domains.getD [] ++ b.domains.getD [] ++
      c.domains.getD []).dedup).length) :
    (classify_input composeQuery).1 = .task_request ∧
    ∃ d : Details, triageActionOn composeQuery [a, b, c] = .ok (.COMPOSE, d) ∧
      d.multi_domain = true ∧
      ∃ chain, d.recommended_chain = some chain ∧ chain.length = 3 ∧
        ∀ x ∈ chain, x = a.name ∨ x = b.name ∨ x = c.name := by
  have hcls : classify_input composeQuery = (.task_request, composeSig) := by decide
  refine ⟨by rw [hcls], ?_⟩
  have hball : ∀ s ∈ [a, b, c],
      0 < (boostScore ((detect_query_domains composeQuery).map (fun p => p.1))
        composeSig composeQuery s).1 :=
    fun s hs => lt_of_lt_of_le (by norm_num)
      (le_trans (h50 s hs) (base_le_boost _ _ _ _))
  have hqual : qualifyingMatches composeQuery [a, b, c] composeSig =
      [rankedOf composeQuery composeSig a, rankedOf composeQuery composeSig b,
       rankedOf composeQuery composeSig c] := by
    simp only [qualifyingMatches, List.filterMap_cons, List.filterMap_nil,
      processSkill_eq2 _ _ _ (hball a (by simp)),
      processSkill_eq2 _ _ _ (hball b (by simp)),
      processSkill_eq2 _ _ _ (hball c (by simp))]
  have hsc : ∀ m ∈ [rankedOf composeQuery composeSig a,
      rankedOf composeQuery composeSig b, rankedOf composeQuery composeSig c],
      50 ≤ m.score := by
    intro m hm
    simp only [List.mem_cons, List.not_mem_nil, or_false] at hm
    rcases hm with rfl | rfl | rfl <;>
      exact Nat.le_min.mpr ⟨by norm_num,
        le_trans (h50 _ (by simp)) (base_le_boost _ _ _ _)⟩
  have hql : (qualifyingMatches composeQuery [a, b, c] composeSig).length = 3 := by
    rw [hqual]; rfl
  have hfind : find_matching_skills composeQuery [a, b, c] 5 composeSig =
      sortD (fun m => m.score) (qualifyingMatches composeQuery [a, b, c] composeSig) := by
    simp only [find_matching_skills]
    apply List.take_of_length_le
    rw [sortD_length, hql]
    norm_num
  have hperm : List.Perm
      (sortD (fun m => m.score) (qualifyingMatches composeQuery [a, b, c] composeSig))
      [rankedOf composeQuery composeSig a, rankedOf composeQuery composeSig b,
       rankedOf composeQuery composeSig c] := by
    rw [← hqual]; exact sortD_perm _ _
  have hmlen : (sortD (fun m => m.score)
      (qualifyingMatches composeQuery [a, b, c] composeSig)).length = 3 := by
    rw [sortD_length, hql]
  have hne : sortD (fun m => m.score)
      (qualifyingMatches composeQuery [a, b, c] composeSig) ≠ [] := by
    intro h
    rw [h] at hmlen
    cases hmlen
  obtain ⟨m0, t, hmt⟩ := List.exists_cons_of_ne_nil hne
  have hts : 50 ≤ (match (sortD (fun m => m.score)
      (qualifyingMatches composeQuery [a, b, c] composeSig)).head? with
      | some m => m.score | none => 0) := by
    rw [hmt]
    exact hsc m0 (hperm.mem_iff.mp (hmt ▸ List.mem_cons_self m0 t))
  have htake : (sortD (fun m => m.score)
      (qualifyingMatches composeQuery [a, b, c] composeSig)).take 3 =
      sortD (fun m => m.score) (qualifyingMatches composeQuery [a, b, c] composeSig) :=
    List.take_of_length_le (by rw [hmlen])
  have hmd : (if 3 ≤ (sortD (fun m => m.score)
        (qualifyingMatches composeQuery [a, b, c] composeSig)).length then
      decide (3 ≤ (((sortD (fun m => m.score)
        (qualifyingMatches composeQuery [a, b, c] composeSig)).take 3).foldl
          (fun acc m => acc ++ m.domains) []).dedup.length)
    else false) = true := by
    rw [htake, hmlen, if_pos (by norm_num)]
    apply decide_eq_true
    rw [foldl_domains_eq, List.nil_append]
    have hj : List.Perm
        ((sortD (fun m => m.score)
          (qualifyingMatches composeQuery [a, b, c] composeSig)).map
            (fun m => m.domains)).flatten
        ([rankedOf composeQuery composeSig a, rankedOf composeQuery composeSig b,
          rankedOf composeQuery composeSig c].map (fun m => m.domains)).flatten :=
      (hperm.map _).flatten
    rw [hj.dedup.length_eq]
    refine le_trans (by norm_num) (le_trans hdom (le_of_eq ?_))
    simp [rankedOf, List.append_assoc]
  obtain ⟨d, hd, hdm, hdc⟩ := decision_compose composeSig
    (sortD (fun m => m.score) (qualifyingMatches composeQuery [a, b, c] composeSig))
    composeQuery hmd hts
  refine ⟨d, ?_, hdm, ?_⟩
  · simp only [triageActionOn, hcls]
    rw [hfind]
    exact hd
  · refine ⟨(sortD (fun m => m.score)
      (qualifyingMatches composeQuery [a, b, c] composeSig)).map (fun m => m.name),
      ?_, ?_, ?_⟩
    · rw [hdc, htake]
    · rw [List.length_map, hmlen]
    · intro x hx
      rcases List.mem_map.mp hx with ⟨m, hm, hxm⟩
      have hm3 := hperm.mem_iff.mp hm
      simp only [List.mem_cons, List.not_mem_nil, or_false] at hm3
      rcases hm3 with rfl | rfl | rfl
      · exact Or.inl hxm.symm
      · exact Or.inr (Or.inl hxm.symm)
      · exact Or.inr (Or.inr hxm.symm)

/-- Witness for compose_scenario_amended at the concrete catalog of the
counterexample (which also satisfies the amended premises). -/
theorem compose_scenario_amended_witness :
    (classify_input composeQuery).1 = .task_request ∧
    ∃ d : Details, triageActionOn composeQuery
        [deploySkill, secureSkill, apiSkill] = .ok (.COMPOSE, d) ∧
      d.multi_domain = true ∧
      ∃ chain, d.recommended_chain = some chain ∧ chain.length = 3 ∧
        ∀ x ∈ chain, x = deploySkill.name ∨ x = secureSkill.name ∨ x = apiSkill.name :=
  compose_scenario_amended deploySkill secureSkill apiSkill (by decide) (by decide)

-- ===========================================================================
-- Claim C6: explicit-improve classification and decision
-- ===========================================================================

/-- Claim C6 counterexample: "upgrade the foo skill" classifies as
EXPLICIT_IMPROVE, but the name-extraction regex only knows the verbs
improve/enhance/update/fix, so mentioned_skill_name stays unset instead of
"foo". -/
theorem improve_extraction_counterexample :
    (classify_input (strL "upgrade the foo skill")).1 = .explicit_improve ∧
    (classify_input (strL "upgrade the foo skill")).2.mentioned_skill_name = none := by
  decide

theorem lowCh_fix (c : Char) (h : isLowerAlpha c = true ∨ c = ' ') : lowCh c = c := by
  rcases h with h | rfl
  · simp only [isLowerAlpha, Bool.and_eq_true, decide_eq_true_eq] at h
    unfold lowCh
    rw [if_neg]
    omega
  · rfl

theorem pyLower_id (l : Str) (h : ∀ c ∈ l, isLowerAlpha c = true ∨ c = ' ') :
    pyLower l = l := by
  induction l with
  | nil => rfl
  | cons c r ih =>
    simp only [pyLower, List.map_cons]
    rw [lowCh_fix c (h c (by simp)), show List.map lowCh r = pyLower r from rfl,
      ih (fun x hx => h x (List.mem_cons_of_mem c hx))]

theorem lower_isWord (c : Char) (h : isLowerAlpha c = true) : isWordCh c = true := by
  simp only [isLowerAlpha, Bool.and_eq_true, decide_eq_true_eq] at h
  simp only [isWordCh, Bool.or_eq_true, Bool.and_eq_true, decide_eq_true_eq]
  omega

theorem word_not_space (c : Char) (h : isWordCh c = true) : isSpaceCh c = false := by
  simp only [isWordCh, Bool.or_eq_true, Bool.and_eq_true, decide_eq_true_eq,
    beq_iff_eq] at h
  simp only [isSpaceCh, Bool.or_eq_false_iff, beq_eq_false_iff_ne, ne_eq]
  omega

theorem word_ne_space (c : Char) (h : isWordCh c = true) : c ≠ ' ' := by
  intro hc
  rw [hc] at h
  cases h

-- scan skeleton lemmas

theorem searchB_cons_eq (sOk : Option Char → Bool) (m : Str → List Str)
    (prev : Option Char) (c : Char) (r : Str) :
    searchB sOk m prev (c :: r) =
      ((sOk prev && !(m (c :: r)).isEmpty) || searchB sOk m (some c) r) := rfl

theorem scanWordSpace (m : Str → List Str) (w : Str)
    (hw : ∀ ch ∈ w, isWordCh ch = true) (c : Char) (hc : isWordCh c = true)
    (rest : Str) :
    searchB nwp m (some c) (w ++ ' ' :: rest) = searchB nwp m (some ' ') rest := by
  induction w generalizing c with
  | nil =>
    rw [List.nil_append, searchB_cons_eq]
    simp [nwp, hc]
  | cons d w2 ih =>
    rw [List.cons_append, searchB_cons_eq]
    simp only [nwp, hc, Bool.not_true, Bool.false_and, Bool.false_or]
    exact ih (fun x hx => hw x (List.mem_cons_of_mem d hx)) d (hw d (by simp))

theorem scanWordNilEnd (m : Str → List Str) (w : Str)
    (hw : ∀ ch ∈ w, isWordCh ch = true) (c : Char) (hc : isWordCh c = true) :
    searchB nwp m (some c) w = false := by
  induction w generalizing c with
  | nil => simp [searchB, nwp, hc]
  | cons d w2 ih =>
    rw [searchB_cons_eq]
    simp only [nwp, hc, Bool.not_true, Bool.false_and, Bool.false_or]
    exact ih (fun x hx => hw x (List.mem_cons_of_mem d hx)) d (hw d (by simp))

-- literal-matching lemmas

theorem leadsWith_take_false (w : Str) : ∀ (v tail : Str),
    leadsWith (w.take v.length) v = false → leadsWith w (v ++ tail) = false := by
  induction w with
  | nil =>
    intro v tail h
    rw [List.take_nil] at h
    cases v with
    | nil => cases h
    | cons b bs => cases h
  | cons a as ih =>
    intro v tail h
    cases v with
    | nil => cases h
    | cons b bs =>
      simp only [List.length_cons, List.take_succ_cons, leadsWith,
        Bool.and_eq_false_iff] at h
      rw [List.cons_append]
      cases h with
      | inl hab => simp [leadsWith, hab]
      | inr hr =>
        simp only [leadsWith, Bool.and_eq_false_iff]
        exact Or.inr (ih bs tail hr)

theorem litM_false (w s : Str) (h : leadsWith w s = false) : litM w s = [] := by
  simp [litM, h]

/-- If a word-character literal matches at the head of `token ++ " " ++ t`,
the literal is a prefix of the token. -/
theorem leadsWith_token_split (w : Str) : ∀ (X t : Str),
    (∀ ch ∈ w, isWordCh ch = true) → (∀ ch ∈ X, isWordCh ch = true) →
    leadsWith w (X ++ ' ' :: t) = true → ∃ X2, X = w ++ X2 := by
  induction w with
  | nil => exact fun X t _ _ _ => ⟨X, rfl⟩
  | cons a as ih =>
    intro X t hw hX h
    cases X with
    | nil =>
      rw [List.nil_append] at h
      simp only [leadsWith, Bool.and_eq_true, beq_iff_eq] at h
      exact absurd (h.1 ▸ hw a (by simp)) (by decide)
    | cons b bs =>
      rw [List.cons_append] at h
      simp only [leadsWith, Bool.and_eq_true, beq_iff_eq] at h
      obtain ⟨rfl, h2⟩ := h
      obtain ⟨X2, hX2⟩ := ih bs t (fun x hx => hw x (List.mem_cons_of_mem a hx))
        (fun x hx => hX x (List.mem_cons_of_mem a hx)) h2
      exact ⟨X2, by rw [List.cons_append, hX2]⟩

/-- A `\b word \s ...` pattern can fire at the start of `token ++ " " ++ t`
only if the token IS the word: otherwise the next stage sees a word
character and dies.  `g` is the rest of the pipeline after the literal. -/
theorem litM_token_then (w X t : Str) (g : Str → List Str)
    (hw : ∀ ch ∈ w, isWordCh ch = true) (hX : ∀ ch ∈ X, isWordCh ch = true)
    (hne : X ≠ w)
    (hg : ∀ c r, isWordCh c = true → g (c :: r) = []) :
    (litM w (X ++ ' ' :: t)).flatMap g = [] := by
  by_cases hl : leadsWith w (X ++ ' ' :: t) = true
  · obtain ⟨X2, rfl⟩ := leadsWith_token_split w X t hw hX hl
    cases X2 with
    | nil => exact absurd (List.append_nil w) (by simpa using hne)
    | cons c X3 =>
      simp only [litM, hl, if_true, List.flatMap_cons, List.flatMap_nil,
        List.append_nil]
      rw [List.append_assoc, List.drop_left]
      exact hg c (X3 ++ ' ' :: t) (hX c (by simp))
  · rw [litM_false w _ (by simpa using hl)]
    rfl

theorem leadsWith_self_append (w z : Str) : leadsWith w (w ++ z) = true := by
  induction w with
  | nil => rfl
  | cons a as ih => simp [leadsWith, ih]

theorem litM_self (w z : Str) : litM w (w ++ z) = [z] := by
  simp [litM, leadsWith_self_append, List.drop_left]

theorem flatMap_ne_nil (l : List α) (f : α → List β) (a : α) (ha : a ∈ l)
    (hf : f a ≠ []) : l.flatMap f ≠ [] :=
  fun hc => hf (List.flatMap_eq_nil_iff.mp hc a ha)

theorem drops1_nonword_head (r : Str)
    (h : r = [] ∨ ∃ c r2, r = c :: r2 ∧ isSpaceCh c = false) :
    drops1 isSpaceCh r = [] := by
  rcases h with rfl | ⟨c, r2, rfl, hc⟩
  · rfl
  · simp [drops1, hc]

theorem drops1_space_single (r : Str)
    (h : r = [] ∨ ∃ c r2, r = c :: r2 ∧ isSpaceCh c = false) :
    drops1 isSpaceCh (' ' :: r) = [r] := by
  have : isSpaceCh ' ' = true := by decide
  simp [drops1, this, drops1_nonword_head r h]

/-- An alternation of word literals followed by `\s+` dies at the start of a
word token different from all the literals. -/
theorem thenM_altM_token (ws : List Str) (g2 : Str → List Str) (X t : Str)
    (hws : ∀ w ∈ ws, ∀ ch ∈ w, isWordCh ch = true)
    (hX : ∀ ch ∈ X, isWordCh ch = true)
    (hne : ∀ w ∈ ws, X ≠ w) :
    thenM (altM (ws.map litM)) (thenM (drops1 isSpaceCh) g2) (X ++ ' ' :: t) = [] := by
  induction ws with
  | nil => rfl
  | cons w ws2 ih =>
    show ((litM w (X ++ ' ' :: t)) ++ altM (ws2.map litM) (X ++ ' ' :: t)).flatMap
      (thenM (drops1 isSpaceCh) g2) = []
    rw [List.flatMap_append]
    rw [litM_token_then w X t _ (hws w (by simp)) hX (hne w (by simp))
      (fun c r hc => by
        show (drops1 isSpaceCh (c :: r)).flatMap g2 = []
        rw [drops1_nonword_head (c :: r) (Or.inr ⟨c, r, rfl, word_not_space c hc⟩)]
        rfl)]
    rw [List.nil_append]
    exact ih (fun w2 hw2 => hws w2 (List.mem_cons_of_mem w hw2))
      (fun w2 hw2 => hne w2 (List.mem_cons_of_mem w hw2))

theorem createM1_token (X t : Str) (hX : ∀ ch ∈ X, isWordCh ch = true)
    (hne : ∀ w ∈ [strL "create", strL "build", strL "make", strL "design",
      strL "develop"], X ≠ w) :
    createM1 (X ++ ' ' :: t) = [] :=
  thenM_altM_token [strL "create", strL "build", strL "make", strL "design",
    strL "develop"] _ X t (by decide) hX hne

theorem createM2_token (X t : Str) (hX : ∀ ch ∈ X, isWordCh ch = true)
    (hne : X ≠ strL "skillforge") :
    createM2 (X ++ ' ' :: t) = [] :=
  litM_token_then (strL "skillforge") X t _ (by decide) hX hne
    (fun c r hc => by
      have h1 : (c == ':') = false := by
        refine beq_eq_false_iff_ne.mpr (fun hcc => ?_)
        rw [hcc] at hc
        cases hc
      show clsM (fun d => d == ':' || isSpaceCh d) (c :: r) = []
      simp [clsM, h1, word_not_space c hc])

theorem createM3_token (X t : Str) (hX : ∀ ch ∈ X, isWordCh ch = true)
    (hne : ∀ w ∈ [strL "new", strL "custom"], X ≠ w) :
    createM3 (X ++ ' ' :: t) = [] :=
  thenM_altM_token [strL "new", strL "custom"] _ X t (by decide) hX hne

theorem createM4_token (X t : Str) (hX : ∀ ch ∈ X, isWordCh ch = true)
    (hne : X ≠ strL "ultimate") :
    createM4 (X ++ ' ' :: t) = [] :=
  litM_token_then (strL "ultimate") X t _ (by decide) hX hne
    (fun c r hc => by
      show (drops1 isSpaceCh (c :: r)).flatMap _ = []
      rw [drops1_nonword_head (c :: r) (Or.inr ⟨c, r, rfl, word_not_space c hc⟩)]
      rfl)

theorem createM1_lit_false (s : Str)
    (h1 : leadsWith (strL "create") s = false) (h2 : leadsWith (strL "build") s = false)
    (h3 : leadsWith (strL "make") s = false) (h4 : leadsWith (strL "design") s = false)
    (h5 : leadsWith (strL "develop") s = false) : createM1 s = [] := by
  show (altM [litM (strL "create"), litM (strL "build"), litM (strL "make"),
    litM (strL "design"), litM (strL "develop")] s).flatMap _ = []
  simp [altM, litM_false _ _ h1, litM_false _ _ h2, litM_false _ _ h3,
    litM_false _ _ h4, litM_false _ _ h5]

theorem createM2_lit_false (s : Str)
    (h : leadsWith (strL "skillforge") s = false) : createM2 s = [] := by
  show (litM (strL "skillforge") s).flatMap _ = []
  rw [litM_false _ _ h]
  rfl

theorem createM3_lit_false (s : Str)
    (h1 : leadsWith (strL "new") s = false) (h2 : leadsWith (strL "custom") s = false) :
    createM3 s = [] := by
  show (altM [litM (strL "new"), litM (strL "custom")] s).flatMap _ = []
  simp [altM, litM_false _ _ h1, litM_false _ _ h2]

theorem createM4_lit_false (s : Str)
    (h : leadsWith (strL "ultimate") s = false) : createM4 s = [] := by
  show (litM (strL "ultimate") s).flatMap _ = []
  rw [litM_false _ _ h]
  rfl

/-- Scan skeleton for the canonical improve query: a `\b`-anchored pattern
that dies at each of the four word starts finds no match anywhere. -/
theorem createSearch_false (m : Str → List Str) (v X : Str)
    (hv : ∃ c vr, v = c :: vr ∧ isWordCh c = true ∧ ∀ ch ∈ vr, isWordCh ch = true)
    (hX : ∃ d Xr, X = d :: Xr ∧ isWordCh d = true ∧ ∀ ch ∈ Xr, isWordCh ch = true)
    (h0 : m (v ++ ' ' :: (strL "the" ++ ' ' :: (X ++ ' ' :: strL "skill"))) = [])
    (h1 : m (strL "the" ++ ' ' :: (X ++ ' ' :: strL "skill")) = [])
    (h2 : m (X ++ ' ' :: strL "skill") = [])
    (h3 : m (strL "skill") = []) :
    searchB nwp m none
      (v ++ ' ' :: (strL "the" ++ ' ' :: (X ++ ' ' :: strL "skill"))) = false := by
  obtain ⟨c, vr, rfl, hc, hvr⟩ := hv
  rw [List.cons_append, searchB_cons_eq,
    show m (c :: (vr ++ ' ' :: (strL "the" ++ ' ' :: (X ++ ' ' :: strL "skill"))))
      = [] from h0]
  simp only [List.isEmpty_nil, Bool.not_true, Bool.and_false, Bool.false_or]
  rw [scanWordSpace m vr hvr c hc]
  rw [show strL "the" ++ ' ' :: (X ++ ' ' :: strL "skill") =
    't' :: (strL "he" ++ ' ' :: (X ++ ' ' :: strL "skill")) from rfl]
  rw [searchB_cons_eq,
    show m ('t' :: (strL "he" ++ ' ' :: (X ++ ' ' :: strL "skill"))) = [] from h1]
  simp only [List.isEmpty_nil, Bool.not_true, Bool.and_false, Bool.false_or]
  rw [scanWordSpace m (strL "he") (by decide) 't' (by decide)]
  obtain ⟨d, Xr, rfl, hd, hXr⟩ := hX
  rw [List.cons_append, searchB_cons_eq,
    show m (d :: (Xr ++ ' ' :: strL "skill")) = [] from h2]
  simp only [List.isEmpty_nil, Bool.not_true, Bool.and_false, Bool.false_or]
  rw [scanWordSpace m Xr hXr d hd]
  rw [show strL "skill" = 's' :: strL "kill" from rfl, searchB_cons_eq,
    show m ('s' :: strL "kill") = [] from h3]
  simp only [List.isEmpty_nil, Bool.not_true, Bool.and_false, Bool.false_or]
  exact scanWordNilEnd m (strL "kill") (by decide) 's' (by decide)

theorem takes1_token (X z : Str) (hXne : X ≠ [])
    (hX : ∀ ch ∈ X, isWordCh ch = true)
    (hz : z = [] ∨ ∃ c r, z = c :: r ∧ isWordCh c = false) :
    ∃ junk, takes1 isWordCh (X ++ z) = (X, z) :: junk := by
  induction X with
  | nil => exact absurd rfl hXne
  | cons a X2 ih =>
    have ha : isWordCh a = true := hX a (by simp)
    cases X2 with
    | nil =>
      have hzz : takes1 isWordCh z = [] := by
        rcases hz with rfl | ⟨c, r, rfl, hc⟩
        · rfl
        · simp [takes1, hc]
      exact ⟨[], by simp [takes1, ha, hzz]⟩
    | cons b X3 =>
      obtain ⟨j, hj⟩ := ih (by simp) (fun x hx => hX x (List.mem_cons_of_mem a hx))
      refine ⟨j.map (fun pr => (a :: pr.1, pr.2)) ++ [([a], (b :: X3) ++ z)], ?_⟩
      show takes1 isWordCh (a :: ((b :: X3) ++ z)) = _
      rw [takes1.eq_def]
      dsimp only
      rw [if_pos ha]
      simp only [List.cons_append] at hj ⊢
      rw [hj]
      simp

theorem drops1_mem (p : Char → Bool) (X z : Str) (hX : X ≠ [])
    (hp : ∀ c ∈ X, p c = true) : z ∈ drops1 p (X ++ z) := by
  induction X with
  | nil => exact absurd rfl hX
  | cons a X2 ih =>
    have ha : p a = true := hp a (by simp)
    cases X2 with
    | nil => simp [drops1, ha]
    | cons b X3 =>
      have := ih (by simp) (fun x hx => hp x (List.mem_cons_of_mem a hx))
      show z ∈ drops1 p (a :: ((b :: X3) ++ z))
      simp only [drops1, ha, if_true]
      exact List.mem_append_left _ this

theorem altM_nilAll (ws : List Str) (s : Str)
    (h : ∀ w ∈ ws, leadsWith w s = false) : altM (ws.map litM) s = [] := by
  induction ws with
  | nil => rfl
  | cons w ws2 ih =>
    show litM w s ++ altM (ws2.map litM) s = []
    rw [litM_false w s (h w (by simp)),
      ih (fun w2 hw2 => h w2 (List.mem_cons_of_mem w hw2)), List.nil_append]

theorem altM_single (ws : List Str) (v z : Str) (hnd : ws.Nodup) (hmem : v ∈ ws)
    (hfail : ∀ w ∈ ws, w ≠ v → leadsWith w (v ++ z) = false) :
    altM (ws.map litM) (v ++ z) = [z] := by
  induction ws with
  | nil => cases hmem
  | cons w ws2 ih =>
    show litM w (v ++ z) ++ altM (ws2.map litM) (v ++ z) = [z]
    by_cases hw : w = v
    · subst hw
      rw [litM_self]
      rw [altM_nilAll ws2 (w ++ z) (fun w2 hw2 => hfail w2
        (List.mem_cons_of_mem w hw2)
        (fun he => (List.nodup_cons.mp hnd).1 (he ▸ hw2)))]
      rfl
    · rw [litM_false w _ (hfail w (by simp) hw), List.nil_append]
      exact ih (List.nodup_cons.mp hnd).2
        (List.mem_cons.mp hmem |>.resolve_left (fun h => hw h.symm))
        (fun w2 hw2 hne => hfail w2 (List.mem_cons_of_mem w hw2) hne)

theorem hasSub_right (n a b : Str) (h : hasSub n b = true) :
    hasSub n (a ++ b) = true := by
  induction a with
  | nil => exact h
  | cons c r ih => simp [hasSub, ih]

/-- The four-verb alternation of the extraction regex reduces to a single
remainder on a query led by one of the verbs. -/
theorem extractAlt_single (v z : Str)
    (hv4 : v = strL "improve" ∨ v = strL "enhance" ∨ v = strL "update" ∨
      v = strL "fix") :
    altM [litM (strL "improve"), litM (strL "enhance"), litM (strL "update"),
      litM (strL "fix")] (v ++ z) = [z] := by
  show altM ([strL "improve", strL "enhance", strL "update",
    strL "fix"].map litM) (v ++ z) = [z]
  apply altM_single _ _ _ (by decide)
  · rcases hv4 with rfl | rfl | rfl | rfl <;> decide
  · intro w hw hne
    fin_cases hw <;> rcases hv4 with rfl | rfl | rfl | rfl <;>
      first
        | exact absurd rfl hne
        | exact leadsWith_take_false _ _ _ (by decide)

/-- The first capture the extraction regex produces on the canonical improve
query is exactly the token X. -/
theorem mention_head (v X : Str)
    (hv4 : v = strL "improve" ∨ v = strL "enhance" ∨ v = strL "update" ∨
      v = strL "fix")
    (hXne : X ≠ []) (hXw : ∀ ch ∈ X, isWordCh ch = true) :
    (mentionCandsAt (v ++ ' ' :: (strL "the" ++ ' ' ::
      (X ++ ' ' :: strL "skill")))).head? = some X := by
  obtain ⟨d, Xr, hXc⟩ := List.exists_cons_of_ne_nil hXne
  have hd : isWordCh d = true := hXw d (by rw [hXc]; simp)
  have e1 := extractAlt_single v (' ' :: (strL "the" ++ ' ' ::
    (X ++ ' ' :: strL "skill"))) hv4
  have e2 : drops1 isSpaceCh (' ' :: (strL "the" ++ ' ' ::
      (X ++ ' ' :: strL "skill"))) = [strL "the" ++ ' ' ::
      (X ++ ' ' :: strL "skill")] :=
    drops1_space_single _ (Or.inr ⟨'t', strL "he" ++ ' ' ::
      (X ++ ' ' :: strL "skill"), rfl, by decide⟩)
  have e3 : thenM (litM (strL "the")) (drops1 isSpaceCh)
      (strL "the" ++ ' ' :: (X ++ ' ' :: strL "skill")) =
      [X ++ ' ' :: strL "skill"] := by
    show (litM (strL "the") (strL "the" ++ ' ' ::
      (X ++ ' ' :: strL "skill"))).flatMap (drops1 isSpaceCh) = _
    rw [litM_self]
    rw [show ([' ' :: (X ++ ' ' :: strL "skill")] :
      List Str).flatMap (drops1 isSpaceCh) =
      drops1 isSpaceCh (' ' :: (X ++ ' ' :: strL "skill")) ++ [] from rfl]
    rw [drops1_space_single _ (Or.inr ⟨d, Xr ++ ' ' :: strL "skill",
      by rw [hXc]; rfl, word_not_space d hd⟩), List.append_nil]
  obtain ⟨j5, e5⟩ := takes1_token X (' ' :: strL "skill") hXne hXw
    (Or.inr ⟨' ', strL "skill", rfl, by decide⟩)
  have e7 : drops1 isSpaceCh (' ' :: strL "skill") = [strL "skill"] := by decide
  have e8 : litM (strL "skill") (strL "skill") = [[]] := by decide
  simp only [mentionCandsAt, e1, List.flatMap_cons, List.flatMap_nil,
    List.append_nil, e2, e3, List.flatMap_append, e5]
  rw [show starDW ((X, ' ' :: strL "skill").2.length) (X, ' ' :: strL "skill") =
    [(X, ' ' :: strL "skill")] from rfl]
  simp only [List.flatMap_cons, List.flatMap_nil, List.append_nil, e7, e8,
    List.map_cons, List.map_nil]
  rfl

/-- EXPLICIT_IMPROVE pattern 1 fires at the head of the canonical improve
query. -/
theorem improveM1_hit (v X : Str)
    (hv4 : v = strL "improve" ∨ v = strL "enhance" ∨ v = strL "update" ∨
      v = strL "fix")
    (hXne : X ≠ []) (hXw : ∀ ch ∈ X, isWordCh ch = true) :
    improveM1 (v ++ ' ' :: (strL "the" ++ ' ' :: (X ++ ' ' :: strL "skill"))) ≠ [] := by
  obtain ⟨d, Xr, hXc⟩ := List.exists_cons_of_ne_nil hXne
  have hd : isWordCh d = true := hXw d (by rw [hXc]; simp)
  have e1 : altM [litM (strL "improve"), litM (strL "enhance"), litM (strL "update"),
      litM (strL "upgrade"), litM (strL "fix"), litM (strL "extend")]
      (v ++ ' ' :: (strL "the" ++ ' ' :: (X ++ ' ' :: strL "skill"))) =
      [' ' :: (strL "the" ++ ' ' :: (X ++ ' ' :: strL "skill"))] := by
    show altM ([strL "improve", strL "enhance", strL "update", strL "upgrade",
      strL "fix", strL "extend"].map litM) _ = _
    apply altM_single _ _ _ (by decide)
    · rcases hv4 with rfl | rfl | rfl | rfl <;> decide
    · intro w hw hne
      fin_cases hw <;> rcases hv4 with rfl | rfl | rfl | rfl <;>
        first
          | exact absurd rfl hne
          | exact leadsWith_take_false _ _ _ (by decide)
  have e2 : drops1 isSpaceCh (' ' :: (strL "the" ++ ' ' ::
      (X ++ ' ' :: strL "skill"))) =
      [strL "the" ++ ' ' :: (X ++ ' ' :: strL "skill")] :=
    drops1_space_single _ (Or.inr ⟨'t', strL "he" ++ ' ' ::
      (X ++ ' ' :: strL "skill"), rfl, by decide⟩)
  have e3 : thenM (litM (strL "the")) (drops1 isSpaceCh)
      (strL "the" ++ ' ' :: (X ++ ' ' :: strL "skill")) =
      [X ++ ' ' :: strL "skill"] := by
    show (litM (strL "the") (strL "the" ++ ' ' ::
      (X ++ ' ' :: strL "skill"))).flatMap (drops1 isSpaceCh) = _
    rw [litM_self]
    rw [show ([' ' :: (X ++ ' ' :: strL "skill")] :
      List Str).flatMap (drops1 isSpaceCh) =
      drops1 isSpaceCh (' ' :: (X ++ ' ' :: strL "skill")) ++ [] from rfl]
    rw [drops1_space_single _ (Or.inr ⟨d, Xr ++ ' ' :: strL "skill",
      by rw [hXc]; rfl, word_not_space d hd⟩), List.append_nil]
  apply flatMap_ne_nil _ _ (' ' :: (strL "the" ++ ' ' :: (X ++ ' ' :: strL "skill")))
  · rw [e1]
    exact List.mem_singleton_self _
  · show (drops1 isSpaceCh (' ' :: (strL "the" ++ ' ' ::
      (X ++ ' ' :: strL "skill")))).flatMap _ ≠ []
    rw [e2]
    apply flatMap_ne_nil _ _ (strL "the" ++ ' ' :: (X ++ ' ' :: strL "skill"))
      (List.mem_singleton_self _)
    show (optM (thenM (litM (strL "the")) (drops1 isSpaceCh))
      (strL "the" ++ ' ' :: (X ++ ' ' :: strL "skill"))).flatMap _ ≠ []
    have hoptm : optM (thenM (litM (strL "the")) (drops1 isSpaceCh))
        (strL "the" ++ ' ' :: (X ++ ' ' :: strL "skill")) =
        [X ++ ' ' :: strL "skill",
         strL "the" ++ ' ' :: (X ++ ' ' :: strL "skill")] := by
      show thenM (litM (strL "the")) (drops1 isSpaceCh) _ ++ [_] = _
      rw [e3]
      rfl
    rw [hoptm]
    apply flatMap_ne_nil _ _ (X ++ ' ' :: strL "skill") (by simp)
    show (optM (thenM (drops1 isWordCh) (drops1 isSpaceCh))
      (X ++ ' ' :: strL "skill")).flatMap _ ≠ []
    show ((thenM (drops1 isWordCh) (drops1 isSpaceCh))
      (X ++ ' ' :: strL "skill") ++ [X ++ ' ' :: strL "skill"]).flatMap _ ≠ []
    rw [List.flatMap_append]
    apply appendL_ne
    show ((drops1 isWordCh (X ++ ' ' :: strL "skill")).flatMap
      (drops1 isSpaceCh)).flatMap _ ≠ []
    apply flatMap_ne_nil _ _ (strL "skill")
    · exact List.mem_flatMap.mpr ⟨' ' :: strL "skill",
        drops1_mem _ X _ hXne hXw,
        by rw [drops1_space_single (strL "skill")
             (Or.inr ⟨'s', strL "kill", rfl, by decide⟩)]
           exact List.mem_singleton_self _⟩
    · show (thenM (litM (strL "skill")) bAfterWord) (strL "skill") ≠ []
      decide

theorem mkq_eq (v X : Str) :
    v ++ strL " the " ++ X ++ strL " skill" =
      v ++ ' ' :: (strL "the" ++ ' ' :: (X ++ ' ' :: strL "skill")) := by
  rw [List.append_assoc, List.append_assoc]
  rfl

/-- Classification half of claim C6 (amended): a query "v the X skill" with v
one of improve/enhance/update/fix and X a lower-case token that does not
itself trigger an EXPLICIT_CREATE pattern classifies as EXPLICIT_IMPROVE with
mentioned_skill_name = X. -/
theorem classify_improve_core (v X : Str)
    (hv4 : v = strL "improve" ∨ v = strL "enhance" ∨ v = strL "update" ∨
      v = strL "fix")
    (hXne : X ≠ []) (hXl : ∀ ch ∈ X, isLowerAlpha ch = true)
    (hexcl : ∀ w ∈ [strL "create", strL "build", strL "make", strL "design",
      strL "develop", strL "new", strL "custom", strL "skillforge",
      strL "ultimate"], X ≠ w) :
    classify_input (v ++ strL " the " ++ X ++ strL " skill") =
      (.explicit_improve, ⟨true, false, false, false, some X, none⟩) := by
  have hXw : ∀ ch ∈ X, isWordCh ch = true := fun ch hc => lower_isWord ch (hXl ch hc)
  obtain ⟨d, Xr, hXc⟩ := List.exists_cons_of_ne_nil hXne
  have hd : isWordCh d = true := hXw d (by rw [hXc]; simp)
  have hXrw : ∀ ch ∈ Xr, isWordCh ch = true :=
    fun ch hc => hXw ch (by rw [hXc]; exact List.mem_cons_of_mem d hc)
  have hvparts : ∃ c vr, v = c :: vr ∧ isWordCh c = true ∧
      ∀ ch ∈ vr, isWordCh ch = true := by
    rcases hv4 with rfl | rfl | rfl | rfl
    · exact ⟨'i', strL "mprove", rfl, by decide, by decide⟩
    · exact ⟨'e', strL "nhance", rfl, by decide, by decide⟩
    · exact ⟨'u', strL "pdate", rfl, by decide, by decide⟩
    · exact ⟨'f', strL "ix", rfl, by decide, by decide⟩
  rw [mkq_eq]
  have hlow : pyLower (v ++ ' ' :: (strL "the" ++ ' ' ::
      (X ++ ' ' :: strL "skill"))) =
      v ++ ' ' :: (strL "the" ++ ' ' :: (X ++ ' ' :: strL "skill")) := by
    apply pyLower_id
    intro c hc
    rcases List.mem_append.mp hc with hc | hc
    · rcases hv4 with rfl | rfl | rfl | rfl <;>
        exact (by decide : ∀ c2 ∈ strL "improve" ++ strL "enhance" ++
          strL "update" ++ strL "fix", isLowerAlpha c2 = true ∨ c2 = ' ') c
          (by simp_all [List.mem_append])
    · rcases List.mem_cons.mp hc with rfl | hc
      · exact Or.inr rfl
      rcases List.mem_append.mp hc with hc | hc
      · exact (by decide : ∀ c2 ∈ strL "the", isLowerAlpha c2 = true ∨ c2 = ' ')
          c hc
      rcases List.mem_cons.mp hc with rfl | hc
      · exact Or.inr rfl
      rcases List.mem_append.mp hc with hc | hc
      · exact Or.inl (hXl c hc)
      rcases List.mem_cons.mp hc with rfl | hc
      · exact Or.inr rfl
      · exact (by decide : ∀ c2 ∈ strL "skill", isLowerAlpha c2 = true ∨ c2 = ' ')
          c hc
  have h0c1 : createM1 (v ++ ' ' :: (strL "the" ++ ' ' ::
      (X ++ ' ' :: strL "skill"))) = [] := by
    rcases hv4 with rfl | rfl | rfl | rfl <;>
      exact createM1_lit_false _ (leadsWith_take_false _ _ _ (by decide))
        (leadsWith_take_false _ _ _ (by decide))
        (leadsWith_take_false _ _ _ (by decide))
        (leadsWith_take_false _ _ _ (by decide))
        (leadsWith_take_false _ _ _ (by decide))
  have h0c2 : createM2 (v ++ ' ' :: (strL "the" ++ ' ' ::
      (X ++ ' ' :: strL "skill"))) = [] := by
    rcases hv4 with rfl | rfl | rfl | rfl <;>
      exact createM2_lit_false _ (leadsWith_take_false _ _ _ (by decide))
  have h0c3 : createM3 (v ++ ' ' :: (strL "the" ++ ' ' ::
      (X ++ ' ' :: strL "skill"))) = [] := by
    rcases hv4 with rfl | rfl | rfl | rfl <;>
      exact createM3_lit_false _ (leadsWith_take_false _ _ _ (by decide))
        (leadsWith_take_false _ _ _ (by decide))
  have h0c4 : createM4 (v ++ ' ' :: (strL "the" ++ ' ' ::
      (X ++ ' ' :: strL "skill"))) = [] := by
    rcases hv4 with rfl | rfl | rfl | rfl <;>
      exact createM4_lit_false _ (leadsWith_take_false _ _ _ (by decide))
  have h1c1 : createM1 (strL "the" ++ ' ' :: (X ++ ' ' :: strL "skill")) = [] :=
    createM1_lit_false _ (leadsWith_take_false _ _ _ (by decide))
      (leadsWith_take_false _ _ _ (by decide))
      (leadsWith_take_false _ _ _ (by decide))
      (leadsWith_take_false _ _ _ (by decide))
      (leadsWith_take_false _ _ _ (by decide))
  have h1c2 : createM2 (strL "the" ++ ' ' :: (X ++ ' ' :: strL "skill")) = [] :=
    createM2_lit_false _ (leadsWith_take_false _ _ _ (by decide))
  have h1c3 : createM3 (strL "the" ++ ' ' :: (X ++ ' ' :: strL "skill")) = [] :=
    createM3_lit_false _ (leadsWith_take_false _ _ _ (by decide))
      (leadsWith_take_false _ _ _ (by decide))
  have h1c4 : createM4 (strL "the" ++ ' ' :: (X ++ ' ' :: strL "skill")) = [] :=
    createM4_lit_false _ (leadsWith_take_false _ _ _ (by decide))
  have h2c1 : createM1 (X ++ ' ' :: strL "skill") = [] :=
    createM1_token X _ hXw (fun w hw => by fin_cases hw <;> exact hexcl _ (by decide))
  have h2c2 : createM2 (X ++ ' ' :: strL "skill") = [] :=
    createM2_token X _ hXw (hexcl _ (by decide))
  have h2c3 : createM3 (X ++ ' ' :: strL "skill") = [] :=
    createM3_token X _ hXw (fun w hw => by fin_cases hw <;> exact hexcl _ (by decide))
  have h2c4 : createM4 (X ++ ' ' :: strL "skill") = [] :=
    createM4_token X _ hXw (hexcl _ (by decide))
  have hcre : createAny (v ++ ' ' :: (strL "the" ++ ' ' ::
      (X ++ ' ' :: strL "skill"))) = false := by
    simp only [createAny, reSearch]
    rw [createSearch_false createM1 v X hvparts ⟨d, Xr, hXc, hd, hXrw⟩
        h0c1 h1c1 h2c1 (by decide),
      createSearch_false createM2 v X hvparts ⟨d, Xr, hXc, hd, hXrw⟩
        h0c2 h1c2 h2c2 (by decide),
      createSearch_false createM3 v X hvparts ⟨d, Xr, hXc, hd, hXrw⟩
        h0c3 h1c3 h2c3 (by decide),
      createSearch_false createM4 v X hvparts ⟨d, Xr, hXc, hd, hXrw⟩
        h0c4 h1c4 h2c4 (by decide)]
    rfl
  have himp : improveAny (v ++ ' ' :: (strL "the" ++ ' ' ::
      (X ++ ' ' :: strL "skill"))) = true := by
    have hne := improveM1_hit v X hv4 hXne hXw
    obtain ⟨c, vr, hvc, hcw, hvrw⟩ := hvparts
    simp only [improveAny, reSearch]
    rw [hvc, List.cons_append] at hne ⊢
    rw [searchB_cons_eq]
    simp [nwp, hne]
  have hext : extractMention (v ++ ' ' :: (strL "the" ++ ' ' ::
      (X ++ ' ' :: strL "skill"))) = some X := by
    have hh := mention_head v X hv4 hXne hXw
    obtain ⟨c, vr, hvc, _, _⟩ := hvparts
    rw [hvc, List.cons_append] at hh ⊢
    show scanFirst mentionCandsAt (c :: (vr ++ ' ' :: (strL "the" ++ ' ' ::
      (X ++ ' ' :: strL "skill")))) = some X
    rw [scanFirst.eq_def]
    dsimp only
    rw [hh]
  have hsub : hasSub (strL "skill") (v ++ ' ' :: (strL "the" ++ ' ' ::
      (X ++ ' ' :: strL "skill"))) = true := by
    apply hasSub_right
    show hasSub (strL "skill") ((' ' :: strL "the") ++
      (' ' :: (X ++ ' ' :: strL "skill"))) = true
    apply hasSub_right
    show hasSub (strL "skill") ((' ' :: X) ++ (' ' :: strL "skill")) = true
    apply hasSub_right
    decide
  simp [classify_input, hlow, hcre, himp, hext, hsub]

theorem findImprove_spec (nm : Str) (l : List MatchResult)
    (hn : ∀ m ∈ l, m.name.isSome = true) :
    ((∃ m ∈ l, hasSub (pyLower nm) (pyLower (m.name.getD [])) = true) →
      ∃ m0, findImprove nm l = .ok (some m0) ∧ m0 ∈ l ∧
        hasSub (pyLower nm) (pyLower (m0.name.getD [])) = true) ∧
    ((∀ m ∈ l, hasSub (pyLower nm) (pyLower (m.name.getD [])) = false) →
      findImprove nm l = .ok none) := by
  induction l with
  | nil =>
    exact ⟨fun ⟨m, hm, _⟩ => absurd hm (List.not_mem_nil m), fun _ => rfl⟩
  | cons m rest ih =>
    have hm : m.name.isSome = true := hn m (List.mem_cons_self m rest)
    match hname : m.name with
    | none => rw [hname] at hm; cases hm
    | some n =>
      have hrest := ih (fun x hx => hn x (List.mem_cons_of_mem m hx))
      by_cases hc : hasSub (pyLower nm) (pyLower n) = true
      · constructor
        · intro _
          exact ⟨m, by simp [findImprove, hname, hc],
            List.mem_cons_self m rest, by rw [hname]; exact hc⟩
        · intro hall
          have := hall m (List.mem_cons_self m rest)
          rw [hname] at this
          rw [show (some n).getD ([] : Str) = n from rfl] at this
          rw [this] at hc
          cases hc
      · constructor
        · intro ⟨m2, hm2, hsub2⟩
          rcases List.mem_cons.mp hm2 with rfl | hm2r
          · rw [hname] at hsub2
            rw [show (some n).getD ([] : Str) = n from rfl] at hsub2
            exact absurd hsub2 hc
          · obtain ⟨m0, h1, h2, h3⟩ := hrest.1 ⟨m2, hm2r, hsub2⟩
            refine ⟨m0, ?_, List.mem_cons_of_mem m h2, h3⟩
            simp only [findImprove, hname]
            rw [if_neg hc]
            exact h1
        · intro hall
          simp only [findImprove, hname]
          rw [if_neg hc]
          exact hrest.2 (fun x hx => hall x (List.mem_cons_of_mem m hx))

theorem decision_improve (signals : Signals) (matchL : List MatchResult)
    (query : Str) (hn : ∀ m ∈ matchL, m.name.isSome = true) :
    (∀ nm, signals.mentioned_skill_name = some nm →
      ((∃ m ∈ matchL, hasSub (pyLower nm) (pyLower (m.name.getD [])) = true) →
        ∃ m0 d, m0 ∈ matchL ∧
          hasSub (pyLower nm) (pyLower (m0.name.getD [])) = true ∧
          make_triage_decision .explicit_improve signals matchL query =
            .ok (.IMPROVE_EXISTING, d) ∧ d.target_skill = some m0.name) ∧
      ((∀ m ∈ matchL, hasSub (pyLower nm) (pyLower (m.name.getD [])) = false) →
        ∃ d, make_triage_decision .explicit_improve signals matchL query =
          .ok (.CLARIFY, d))) ∧
    (signals.mentioned_skill_name = none →
      ∃ d, make_triage_decision .explicit_improve signals matchL query =
        .ok (.CLARIFY, d)) := by
  constructor
  · intro nm hmn
    constructor
    · intro hex
      obtain ⟨m0, hfi, hm0, hsub⟩ := (findImprove_spec nm matchL hn).1 hex
      have hdec : make_triage_decision .explicit_improve signals matchL query =
          .ok (.IMPROVE_EXISTING,
            ⟨.explicit_improve, matchL.head?,
             (match matchL.head? with | some m => m.score | none => 0),
             matchL.length,
             (if 3 ≤ matchL.length then
               decide (3 ≤ ((matchL.take 3).foldl
                 (fun acc m => acc ++ m.domains) []).dedup.length)
              else false),
             strL "Improving existing skill: " ++ fmtName m0.name,
             none, none, some m0.name, none, none⟩) := by
        unfold make_triage_decision
        dsimp only
        rw [hmn]
        dsimp only
        rw [hfi]
      exact ⟨m0, _, hm0, hsub, hdec, rfl⟩
    · intro hall
      apply Exists.intro
      unfold make_triage_decision
      dsimp only
      rw [hmn]
      dsimp only
      rw [(findImprove_spec nm matchL hn).2 hall]
  · intro hmn
    apply Exists.intro
    unfold make_triage_decision
    dsimp only
    rw [hmn]

/-- Claim C6 amended: (a) for a query "v the X skill" with v one of
improve/enhance/update/fix (the extraction regex at line 171 does not know
upgrade/extend) and X a lower-case word token that is not itself a trigger of
an EXPLICIT_CREATE pattern (not create/build/make/design/develop/new/custom/
skillforge/ultimate), the classifier returns EXPLICIT_IMPROVE with
mentioned_skill_name = X; (b) under category EXPLICIT_IMPROVE with matches
whose names are present, if the mentioned name is set and some match name
contains it case-insensitively the decision is IMPROVE_EXISTING targeting the
first such match, otherwise (no containing match, or no mentioned name) the
decision is CLARIFY. -/
theorem improve_flow_amended :
    (∀ v, (v = strL "improve" ∨ v = strL "enhance" ∨ v = strL "update" ∨
        v = strL "fix") →
      ∀ X : Str, X ≠ [] → (∀ ch ∈ X, isLowerAlpha ch = true) →
      (∀ w ∈ [strL "create", strL "build", strL "make", strL "design",
        strL "develop", strL "new", strL "custom", strL "skillforge",
        strL "ultimate"], X ≠ w) →
      classify_input (v ++ strL " the " ++ X ++ strL " skill") =
        (.explicit_improve, ⟨true, false, false, false, some X, none⟩)) ∧
    (∀ (signals : Signals) (matchL : List MatchResult) (query : Str),
      (∀ m ∈ matchL, m.name.isSome = true) →
      (∀ nm, signals.mentioned_skill_name = some nm →
        ((∃ m ∈ matchL, hasSub (pyLower nm) (pyLower (m.name.getD [])) = true) →
          ∃ m0 d, m0 ∈ matchL ∧
            hasSub (pyLower nm) (pyLower (m0.name.getD [])) = true ∧
            make_triage_decision .explicit_improve signals matchL query =
              .ok (.IMPROVE_EXISTING, d) ∧ d.target_skill = some m0.name) ∧
        ((∀ m ∈ matchL, hasSub (pyLower nm) (pyLower (m.name.getD [])) = false) →
          ∃ d, make_triage_decision .explicit_improve signals matchL query =
            .ok (.CLARIFY, d))) ∧
      (signals.mentioned_skill_name = none →
        ∃ d, make_triage_decision .explicit_improve signals matchL query =
          .ok (.CLARIFY, d))) :=
  ⟨fun v hv4 X h1 h2 h3 => classify_improve_core v X hv4 h1 h2 h3,
   fun signals matchL query hn => decision_improve signals matchL query hn⟩

/-- A ranked match whose name contains "foo". -/
def fooMatch : MatchResult := ⟨some (strL "foo-helper"), 60, [], none, [], []⟩

/-- Signals carrying mentioned skill name "foo". -/
def sigFoo : Signals := ⟨true, false, false, false, some (strL "foo"), none⟩

/-- Witness for improve_flow_amended at concrete inputs. -/
theorem improve_flow_amended_witness :
    classify_input (strL "improve" ++ strL " the " ++ strL "foo" ++ strL " skill") =
      (.explicit_improve, ⟨true, false, false, false, some (strL "foo"), none⟩) ∧
    ∃ m0 d, m0 ∈ [fooMatch] ∧
      hasSub (pyLower (strL "foo")) (pyLower (m0.name.getD [])) = true ∧
      make_triage_decision .explicit_improve sigFoo [fooMatch] (strL "q") =
        .ok (.IMPROVE_EXISTING, d) ∧ d.target_skill = some m0.name :=
  ⟨improve_flow_amended.1 (strL "improve") (Or.inl rfl) (strL "foo")
      (by decide) (by decide) (by decide),
   ((improve_flow_amended.2 sigFoo [fooMatch] (strL "q") (by decide)).1
      (strL "foo") rfl).1 (by decide)⟩
